import Mathlib

/-!
Verification of the kiki image-to-sound pipeline.

This file gives a shallow embedding, over exact rationals, of the core of the
repository: the multi-scale angularity scorer and feature extractor
(`src/angularityAnalysis` / `src/imageAnalysis`), the discrete sound engines
(`src/soundGeneration.js`), the v2 engine's mode/intensity dispatch
(`soundGenerationV2`), and the offline renderer and WAV encoder
(`audioExport`).  Transcendental operations the JavaScript source takes from
`Math` (`sqrt`, `atan2`, `pow`) are abstracted into a `FloatOps` record and
applied exactly where the source applies them; all other arithmetic is exact.
Web Audio graph construction is modelled as an event trace: each
oscillator/noise voice the source creates becomes one `Voice` value recording
its automation breakpoints, start/stop times and filter routing, in emission
order.
-/

namespace Kiki

/-- The transcendental `Math` operations used by the source, kept abstract.
`pow2 x` models `Math.pow(2, x)`; `pi` models `Math.PI`. -/
structure FloatOps where
  sqrt : ℚ → ℚ
  atan2 : ℚ → ℚ → ℚ
  pow2 : ℚ → ℚ
  pi : ℚ

/-- The pattern `Math.min(Math.max(x, 0), 1)` as written throughout the source. -/
def clamp01 (x : ℚ) : ℚ := min (max x 0) 1

/-- JavaScript `ToInteger` truncation (toward zero), used by `DataView.setInt16`. -/
def ratTrunc (q : ℚ) : ℤ := if 0 ≤ q then ⌊q⌋ else ⌈q⌉

/-- Number of iterations of `for (i = 0; i < q; i++)` for a rational bound `q`. -/
def natCeil (q : ℚ) : ℕ := (⌈q⌉).toNat

/-- Number of iterations of `for (i = 0; i < Math.floor(q); i++)`. -/
def natFloor (q : ℚ) : ℕ := (⌊q⌋).toNat

/-- Number of iterations of `for (v = a; v < b; v += s)` (stride `s > 0`). -/
def strideCount (a b s : ℕ) : ℕ := (b - a + s - 1) / s

/-! ## Sound-generation data model -/

inductive Waveform
  | sine | triangle | square | sawtooth
  deriving DecidableEq

inductive RampKind
  | set      -- setValueAtTime
  | linear   -- linearRampToValueAtTime
  | expo     -- exponentialRampToValueAtTime
  deriving DecidableEq

/-- One automation breakpoint: `(time, value, ramp kind)`. -/
structure AEvent where
  t : ℚ
  v : ℚ
  k : RampKind
  deriving DecidableEq

inductive FilterType
  | lowpass | highpass
  deriving DecidableEq

structure FilterSpec where
  ftype : FilterType
  freq : List AEvent := []
  q : List AEvent := []
  deriving DecidableEq

inductive VoiceKind
  | osc    -- a single OscillatorNode voice
  | fm     -- a carrier/modulator pair from createFMOsc
  | noise  -- a white-noise buffer source from addNoise
  | hihat  -- the shaped-noise hi-hat buffer source
  deriving DecidableEq

/-- One voice of the scheduled audio graph, with its automation programs.
`freq`/`gain` are the oscillator-frequency and gain-node breakpoints;
`modFreq`/`modGain` belong to the FM modulator; `vibFreq`/`vibGain` to a
vibrato LFO feeding the oscillator frequency. -/
structure Voice where
  kind : VoiceKind
  wave : Option Waveform := none
  freq : List AEvent := []
  modFreq : List AEvent := []
  modGain : List AEvent := []
  vibFreq : List AEvent := []
  vibGain : List AEvent := []
  filter : Option FilterSpec := none
  gain : List AEvent := []
  noiseAmount : ℚ := 0
  noiseDur : ℚ := 0
  start : Option ℚ := none
  stop : Option ℚ := none
  deriving DecidableEq

/-- One spatial sample of `segmentData`: `{brightness, angularity}` as consumed
by the sound engines (coordinates are carried separately in
`samplingPoints`). -/
structure Sample where
  brightness : ℚ
  angularity : ℚ
  deriving DecidableEq

/-- The blended angularity sub-metrics. -/
structure ScaleMetrics where
  directionClustering : ℚ
  edgeContrast : ℚ
  directionChangeSharpness : ℚ
  deriving DecidableEq

/-- The contract between the analysis and synthesis halves. -/
structure AnalysisRecord where
  brightness : ℚ := 0
  angularity : ℚ := 0
  complexity : ℚ := 0
  rhythm : ℚ := 0
  warmth : ℚ := 0
  saturation : ℚ := 0
  texture : ℚ := 0
  segmentData : List Sample := []
  samplingPoints : List (ℤ × ℤ) := []
  histogram : List ℚ := []
  angularityMetrics : ScaleMetrics := ⟨0, 0, 0⟩
  deriving DecidableEq

/-! ## Shared synthesis helpers (soundGeneration.js) -/

/-- The fixed 16-step expanded minor scale used by every engine. -/
def expandedMinorScale : List ℚ :=
  [0, 2, 3, 5, 7, 8, 10, 12, 14, 15, 17, 19, 20, 22, 24, 26]

/-- The melody scale-degree index `Math.floor(segment.brightness * 15)`. -/
def melodyNoteIndex (brightness : ℚ) : ℤ := ⌊brightness * 15⌋

/-- Lookup `expandedMinorScale[i]`; out-of-range access models the JavaScript
`undefined` read and yields a junk value never relied upon. -/
def scaleAt (i : ℤ) : ℚ :=
  if 0 ≤ i ∧ i < 16 then expandedMinorScale.getD i.toNat 0 else 0

/-- The base frequency `baseFreq = 220 + brightness * 220`. -/
def baseFreqOf (brightness : ℚ) : ℚ := 220 + brightness * 220

/-- The cutoff `filterCutoff = 500 + (warmth + 1) * 2000` (discrete engines). -/
def discreteFilterCutoff (warmth : ℚ) : ℚ := 500 + (warmth + 1) * 2000

/-- The unclamped Bouba melody attack/decay time,
`0.2 + (1 - complexity) * 0.3` (realtime `generateBoubaSound`). -/
def boubaRawAttack (complexity : ℚ) : ℚ := 0.2 + (1 - complexity) * 0.3

/-- Offline Bouba melody attack, clamped: `Math.min(rawAttack, noteDuration * 0.3)`. -/
def boubaOfflineAttack (complexity noteDuration : ℚ) : ℚ :=
  min (boubaRawAttack complexity) (noteDuration * 0.3)

/-- Offline Bouba melody decay, clamped: `Math.min(rawDecay, noteDuration * 0.3)`. -/
def boubaOfflineDecay (complexity noteDuration : ℚ) : ℚ :=
  min (boubaRawAttack complexity) (noteDuration * 0.3)

/-- Offline Bouba melody sustain end:
`Math.max(attackTime + 0.01, noteDuration - decayTime)`. -/
def boubaOfflineSustainEnd (complexity noteDuration : ℚ) : ℚ :=
  max (boubaOfflineAttack complexity noteDuration + 0.01)
    (noteDuration - boubaOfflineDecay complexity noteDuration)

/-- V2 Bouba melody: `safeAttack = Math.min(attackTime, melodyNoteSpacing * 0.4)`. -/
def safeAttackV2 (attackTime melodyNoteSpacing : ℚ) : ℚ :=
  min attackTime (melodyNoteSpacing * 0.4)

/-- V2 Bouba melody: `safeDecay = Math.min(decayTime, melodyNoteSpacing * 0.3)`. -/
def safeDecayV2 (decayTime melodyNoteSpacing : ℚ) : ℚ :=
  min decayTime (melodyNoteSpacing * 0.3)

/-- A lowpass `BiquadFilterNode` with a frequency program only. -/
def lowpassF (fe : List AEvent) : Option FilterSpec :=
  some { ftype := .lowpass, freq := fe }

/-- A lowpass `BiquadFilterNode` with frequency and Q programs. -/
def lowpassFQ (fe qe : List AEvent) : Option FilterSpec :=
  some { ftype := .lowpass, freq := fe, q := qe }

/-- A highpass `BiquadFilterNode` with a frequency program only. -/
def highpassF (fe : List AEvent) : Option FilterSpec :=
  some { ftype := .highpass, freq := fe }

/-- The noise voice `addNoise`/`addNoiseOffline` attach to a gain stage. -/
def noiseVoice (time duration amount : ℚ) : Voice :=
  { kind := .noise,
    gain := [⟨time, amount * 0.6, .set⟩],
    noiseAmount := amount,
    noiseDur := duration,
    start := some time }

/-- Realtime `addNoise`: skipped only when `noiseAmount < 0.05`. -/
def addNoiseEvents (time duration amount : ℚ) : List Voice :=
  if amount < 0.05 then [] else [noiseVoice time duration amount]

/-- Model of `addNoiseOffline`: also skipped when `duration <= 0 || time < 0`. -/
def addNoiseOfflineEvents (time duration amount : ℚ) : List Voice :=
  if amount < 0.05 ∨ duration ≤ 0 ∨ time < 0 then [] else
    [noiseVoice time duration amount]

/-- Model of `createFMOsc` / `createFMOscOffline` (identical in both sources): a
carrier/modulator pair with `modRatio = 1 + complexity*3`,
`modIndex = saturation*5`. -/
def createFMOscVoice (carrierFreq time duration complexity saturation : ℚ) :
    Voice :=
  let modRatio := 1 + complexity * 3
  let modFreq := carrierFreq * modRatio
  let modIndex := saturation * 5
  { kind := .fm,
    freq := [⟨time, carrierFreq, .set⟩],
    modFreq := [⟨time, modFreq, .set⟩],
    modGain := [⟨time, carrierFreq * modIndex, .set⟩],
    start := some time,
    stop := some (time + duration) }

/-! ## Discrete Bouba engine: realtime (`generateBoubaSound`) and offline
(`generateBoubaSoundOffline`) -/

/-- Realtime `generateBoubaSound` (soundGeneration.js): the ordered list of
voices it schedules. -/
def generateBoubaSoundRT (ops : FloatOps) (a : AnalysisRecord) (now totalDuration : ℚ) :
    List Voice :=
  let baseFreq := baseFreqOf a.brightness
  let filterCutoff := discreteFilterCutoff a.warmth
  let noiseAmount := a.texture
  let bassVoice : Voice :=
    { kind := .osc, wave := some .sine,
      freq := [⟨now, baseFreq * 0.5, .set⟩],
      filter := lowpassFQ [⟨now, filterCutoff * 0.8, .set⟩] [⟨now, 1 + a.saturation * 5, .set⟩],
      gain := [⟨now, 0, .set⟩, ⟨now + 1, 0.2, .linear⟩,
        ⟨now + totalDuration - 1, 0.2, .linear⟩, ⟨now + totalDuration, 0, .linear⟩],
      start := some now, stop := some (now + totalDuration) }
  let noteDuration := totalDuration / a.segmentData.length
  let melody := a.segmentData.enum.flatMap fun p =>
    let index := p.1
    let segment := p.2
    let time := now + index * noteDuration
    let noteIndex := melodyNoteIndex segment.brightness
    let freq := baseFreq * ops.pow2 (scaleAt noteIndex / 12)
    let attackTime := boubaRawAttack a.complexity
    let decayTime := boubaRawAttack a.complexity
    let glide : List AEvent :=
      if index < a.segmentData.length - 1 then
        let nextNoteIndex :=
          melodyNoteIndex (a.segmentData.getD (index + 1) ⟨0, 0⟩).brightness
        let nextFreq := baseFreq * ops.pow2 (scaleAt nextNoteIndex / 12)
        let glideTime := noteDuration * (0.5 + (1 - a.complexity) * 0.3)
        [⟨time + glideTime, nextFreq, .expo⟩]
      else []
    if a.complexity > 0.6 then
      let fm := createFMOscVoice freq time noteDuration a.complexity a.saturation
      { fm with
        freq := fm.freq ++ glide,
        filter := lowpassF [⟨time, filterCutoff * 0.9, .set⟩],
        gain := [⟨time, 0, .set⟩, ⟨time + attackTime, 0.12, .linear⟩,
          ⟨time + noteDuration - decayTime, 0.1, .linear⟩,
          ⟨time + noteDuration, 0, .linear⟩] }
        :: addNoiseEvents time noteDuration noiseAmount
    else
      { kind := .osc, wave := some (if a.warmth > 0 then .triangle else .sine),
        freq := ⟨time, freq, .set⟩ :: glide,
        filter := lowpassF [⟨time, filterCutoff, .set⟩],
        gain := [⟨time, 0, .set⟩, ⟨time + attackTime, 0.15, .linear⟩,
          ⟨time + noteDuration - decayTime, 0.12, .linear⟩,
          ⟨time + noteDuration, 0, .linear⟩],
        start := some time, stop := some (time + noteDuration) }
        :: addNoiseEvents time noteDuration noiseAmount
  let chordNotes : List ℤ := [0, 3, 5, 7]
  let pads := chordNotes.flatMap fun noteOffset =>
    let freq := baseFreq * ops.pow2 (scaleAt noteOffset / 12)
    { kind := .osc, wave := some .sine,
      freq := [⟨now, freq, .set⟩],
      vibFreq := [⟨now, 5, .set⟩],
      vibGain := [⟨now, 3 + a.saturation * 5, .set⟩],
      filter := lowpassF [⟨now, filterCutoff * 1.2, .set⟩],
      gain := [⟨now, 0, .set⟩, ⟨now + 1.5, 0.04, .linear⟩,
        ⟨now + totalDuration - 1.5, 0.04, .linear⟩, ⟨now + totalDuration, 0, .linear⟩],
      start := some now, stop := some (now + totalDuration) }
      :: (if a.texture > 0.2 then addNoiseEvents now totalDuration noiseAmount else [])
  bassVoice :: (addNoiseEvents now totalDuration noiseAmount ++ melody ++ pads)

/-- Offline `generateBoubaSoundOffline` (audioExport): the ordered list of
voices it schedules.  Differs from the realtime path in the clamped bass-drone
fade, melody attack/decay/sustain, and pad fade times, and in `addNoiseOffline`'s
extra guards. -/
def generateBoubaSoundOff (ops : FloatOps) (a : AnalysisRecord) (now totalDuration : ℚ) :
    List Voice :=
  let baseFreq := baseFreqOf a.brightness
  let filterCutoff := discreteFilterCutoff a.warmth
  let noiseAmount := a.texture
  let bassVoice : Voice :=
    { kind := .osc, wave := some .sine,
      freq := [⟨now, baseFreq * 0.5, .set⟩],
      filter := lowpassFQ [⟨now, filterCutoff * 0.8, .set⟩] [⟨now, 1 + a.saturation * 5, .set⟩],
      gain := [⟨now, 0, .set⟩,
        ⟨now + min 1 (totalDuration * 0.2), 0.2, .linear⟩,
        ⟨now + max (totalDuration * 0.2) (totalDuration - 1), 0.2, .linear⟩,
        ⟨now + totalDuration, 0, .linear⟩],
      start := some now, stop := some (now + totalDuration) }
  let noteDuration := totalDuration / a.segmentData.length
  let melody := a.segmentData.enum.flatMap fun p =>
    let index := p.1
    let segment := p.2
    let time := now + index * noteDuration
    let noteIndex := melodyNoteIndex segment.brightness
    let freq := baseFreq * ops.pow2 (scaleAt noteIndex / 12)
    let attackTime := boubaOfflineAttack a.complexity noteDuration
    let sustainEnd := boubaOfflineSustainEnd a.complexity noteDuration
    let glide : List AEvent :=
      if index < a.segmentData.length - 1 then
        let nextNoteIndex :=
          melodyNoteIndex (a.segmentData.getD (index + 1) ⟨0, 0⟩).brightness
        let nextFreq := baseFreq * ops.pow2 (scaleAt nextNoteIndex / 12)
        let glideTime := noteDuration * (0.5 + (1 - a.complexity) * 0.3)
        [⟨time + glideTime, nextFreq, .expo⟩]
      else []
    if a.complexity > 0.6 then
      let fm := createFMOscVoice freq time noteDuration a.complexity a.saturation
      { fm with
        freq := fm.freq ++ glide,
        filter := lowpassF [⟨time, filterCutoff * 0.9, .set⟩],
        gain := [⟨time, 0, .set⟩, ⟨time + attackTime, 0.12, .linear⟩,
          ⟨time + sustainEnd, 0.1, .linear⟩,
          ⟨time + noteDuration, 0, .linear⟩] }
        :: addNoiseOfflineEvents time noteDuration noiseAmount
    else
      { kind := .osc, wave := some (if a.warmth > 0 then .triangle else .sine),
        freq := ⟨time, freq, .set⟩ :: glide,
        filter := lowpassF [⟨time, filterCutoff, .set⟩],
        gain := [⟨time, 0, .set⟩, ⟨time + attackTime, 0.15, .linear⟩,
          ⟨time + sustainEnd, 0.12, .linear⟩,
          ⟨time + noteDuration, 0, .linear⟩],
        start := some time, stop := some (time + noteDuration) }
        :: addNoiseOfflineEvents time noteDuration noiseAmount
  let chordNotes : List ℤ := [0, 3, 5, 7]
  let pads := chordNotes.flatMap fun noteOffset =>
    let freq := baseFreq * ops.pow2 (scaleAt noteOffset / 12)
    let padAttack := min 1.5 (totalDuration * 0.3)
    let padSustainEnd := max (padAttack + 0.01) (totalDuration - 1.5)
    { kind := .osc, wave := some .sine,
      freq := [⟨now, freq, .set⟩],
      vibFreq := [⟨now, 5, .set⟩],
      vibGain := [⟨now, 3 + a.saturation * 5, .set⟩],
      filter := lowpassF [⟨now, filterCutoff * 1.2, .set⟩],
      gain := [⟨now, 0, .set⟩, ⟨now + padAttack, 0.04, .linear⟩,
        ⟨now + padSustainEnd, 0.04, .linear⟩, ⟨now + totalDuration, 0, .linear⟩],
      start := some now, stop := some (now + totalDuration) }
      :: (if a.texture > 0.2 then addNoiseOfflineEvents now totalDuration noiseAmount else [])
  bassVoice :: (addNoiseOfflineEvents now totalDuration noiseAmount ++ melody ++ pads)

/-! ## Discrete Kiki engine: realtime (`generateKikiSound`) and offline
(`generateKikiSoundOffline`) -/

/-- Realtime `generateKikiSound` (soundGeneration.js): the ordered list of
voices it schedules. -/
def generateKikiSoundRT (ops : FloatOps) (a : AnalysisRecord) (now totalDuration : ℚ) :
    List Voice :=
  let baseFreq := baseFreqOf a.brightness
  let bpm := 60 + a.rhythm * 240
  let beatLength := 60 / bpm / 4
  let filterCutoff := discreteFilterCutoff a.warmth
  let noiseAmount := a.texture
  let bassNotes : List ℤ := [0, 0, 5, 0, 3, 0, 5, 3]
  let bass := (List.range (natFloor (totalDuration / beatLength))).flatMap fun i =>
    let time := now + i * beatLength
    let noteIndex := bassNotes.getD (i % bassNotes.length) 0
    let freq := baseFreq * 0.5 * ops.pow2 (scaleAt noteIndex / 12)
    let noteDuration := beatLength * (0.3 + a.complexity * 0.4)
    { kind := .osc, wave := some (if a.warmth > 0 then .square else .sawtooth),
      freq := [⟨time, freq, .set⟩],
      filter := lowpassFQ [⟨time, filterCutoff, .set⟩] [⟨time, 1 + a.saturation * 10, .set⟩],
      gain := [⟨time, 0.25, .set⟩, ⟨time + noteDuration, 0.01, .expo⟩],
      start := some time, stop := some (time + noteDuration) }
      :: addNoiseEvents time noteDuration noiseAmount
  let melody := a.segmentData.enum.flatMap fun p =>
    let index := p.1
    let segment := p.2
    let time := now + index * (totalDuration / a.segmentData.length)
    let noteIndex := melodyNoteIndex segment.brightness
    let freq := baseFreq * 2 * ops.pow2 (scaleAt noteIndex / 12)
    let noteDuration := 0.05 + (1 - segment.angularity) * 0.15
    if a.complexity > 0.6 then
      let fm := createFMOscVoice freq time noteDuration a.complexity a.saturation
      { fm with
        filter := lowpassF [⟨time, filterCutoff * 1.5, .set⟩],
        gain := [⟨time, 0.15, .set⟩, ⟨time + noteDuration, 0.01, .expo⟩] }
        :: addNoiseEvents time noteDuration noiseAmount
    else
      { kind := .osc, wave := some (if a.saturation > 0.5 then .sawtooth else .triangle),
        freq := [⟨time, freq, .set⟩],
        filter := lowpassF [⟨time, filterCutoff * 1.5, .set⟩],
        gain := [⟨time, 0.18, .set⟩, ⟨time + noteDuration, 0.01, .expo⟩],
        start := some time, stop := some (time + noteDuration) }
        :: addNoiseEvents time noteDuration noiseAmount
  let kicks := (List.range (natCeil (totalDuration / beatLength))).flatMap fun i =>
    let time := now + i * beatLength
    { kind := .osc,
      freq := [⟨time, 150, .set⟩, ⟨time + 0.05, 40, .expo⟩],
      gain := [⟨time, 0.35, .set⟩, ⟨time + 0.15, 0.01, .expo⟩],
      start := some time, stop := some (time + 0.15) }
      :: (if a.texture > 0.3 then addNoiseEvents time 0.15 noiseAmount else [])
  let hihats := (List.range (natCeil (totalDuration / (beatLength / 2)))).map fun (i : ℕ) =>
    let time := now + i * beatLength / 2
    { kind := .hihat,
      filter := highpassF [⟨time, 8000, .set⟩],
      gain := [⟨time, 0.08, .set⟩, ⟨time + 0.03, 0.001, .expo⟩],
      start := some time : Voice }
  bass ++ melody ++ kicks ++ hihats

/-- Offline `generateKikiSoundOffline` (audioExport): identical to the
realtime path except that noise layers go through `addNoiseOffline`. -/
def generateKikiSoundOff (ops : FloatOps) (a : AnalysisRecord) (now totalDuration : ℚ) :
    List Voice :=
  let baseFreq := baseFreqOf a.brightness
  let bpm := 60 + a.rhythm * 240
  let beatLength := 60 / bpm / 4
  let filterCutoff := discreteFilterCutoff a.warmth
  let noiseAmount := a.texture
  let bassNotes : List ℤ := [0, 0, 5, 0, 3, 0, 5, 3]
  let bass := (List.range (natFloor (totalDuration / beatLength))).flatMap fun i =>
    let time := now + i * beatLength
    let noteIndex := bassNotes.getD (i % bassNotes.length) 0
    let freq := baseFreq * 0.5 * ops.pow2 (scaleAt noteIndex / 12)
    let noteDuration := beatLength * (0.3 + a.complexity * 0.4)
    { kind := .osc, wave := some (if a.warmth > 0 then .square else .sawtooth),
      freq := [⟨time, freq, .set⟩],
      filter := lowpassFQ [⟨time, filterCutoff, .set⟩] [⟨time, 1 + a.saturation * 10, .set⟩],
      gain := [⟨time, 0.25, .set⟩, ⟨time + noteDuration, 0.01, .expo⟩],
      start := some time, stop := some (time + noteDuration) }
      :: addNoiseOfflineEvents time noteDuration noiseAmount
  let melody := a.segmentData.enum.flatMap fun p =>
    let index := p.1
    let segment := p.2
    let time := now + index * (totalDuration / a.segmentData.length)
    let noteIndex := melodyNoteIndex segment.brightness
    let freq := baseFreq * 2 * ops.pow2 (scaleAt noteIndex / 12)
    let noteDuration := 0.05 + (1 - segment.angularity) * 0.15
    if a.complexity > 0.6 then
      let fm := createFMOscVoice freq time noteDuration a.complexity a.saturation
      { fm with
        filter := lowpassF [⟨time, filterCutoff * 1.5, .set⟩],
        gain := [⟨time, 0.15, .set⟩, ⟨time + noteDuration, 0.01, .expo⟩] }
        :: addNoiseOfflineEvents time noteDuration noiseAmount
    else
      { kind := .osc, wave := some (if a.saturation > 0.5 then .sawtooth else .triangle),
        freq := [⟨time, freq, .set⟩],
        filter := lowpassF [⟨time, filterCutoff * 1.5, .set⟩],
        gain := [⟨time, 0.18, .set⟩, ⟨time + noteDuration, 0.01, .expo⟩],
        start := some time, stop := some (time + noteDuration) }
        :: addNoiseOfflineEvents time noteDuration noiseAmount
  let kicks := (List.range (natCeil (totalDuration / beatLength))).flatMap fun i =>
    let time := now + i * beatLength
    { kind := .osc,
      freq := [⟨time, 150, .set⟩, ⟨time + 0.05, 40, .expo⟩],
      gain := [⟨time, 0.35, .set⟩, ⟨time + 0.15, 0.01, .expo⟩],
      start := some time, stop := some (time + 0.15) }
      :: (if a.texture > 0.3 then addNoiseOfflineEvents time 0.15 noiseAmount else [])
  let hihats := (List.range (natCeil (totalDuration / (beatLength / 2)))).map fun (i : ℕ) =>
    let time := now + i * beatLength / 2
    { kind := .hihat,
      filter := highpassF [⟨time, 8000, .set⟩],
      gain := [⟨time, 0.08, .set⟩, ⟨time + 0.03, 0.001, .expo⟩],
      start := some time : Voice }
  bass ++ melody ++ kicks ++ hihats

/-! ## Mode dispatch and parameter mapping -/

inductive SoundMode
  | kiki | bouba
  deriving DecidableEq

/-- The discrete engine's mode switch from `generateSound`:
`analysis.angularity > 0.5 ? Kiki : Bouba`. -/
def generateSoundMode (angularity : ℚ) : SoundMode :=
  if angularity > 0.5 then .kiki else .bouba

/-- The v2 engine's mode switch plus intensity from `generateSoundV2`:
`(angularity - 0.5) / 0.5` for Kiki, `(0.5 - angularity) / 0.5` for Bouba. -/
def generateSoundV2Select (angularity : ℚ) : SoundMode × ℚ :=
  if angularity > 0.5 then (.kiki, (angularity - 0.5) / 0.5)
  else (.bouba, (0.5 - angularity) / 0.5)

/-- The master-volume clamp of `generateSound`: `Math.max(0, Math.min(1, volume))`. -/
def clampedVolume (volume : ℚ) : ℚ := max 0 (min 1 volume)

/-- The derived synthesis parameters of the discrete Kiki engine
(`generateKikiSound`): tempo, filter cutoff, bass filter Q, noise amount. -/
structure KikiParams where
  bpm : ℚ
  filterCutoff : ℚ
  filterQ : ℚ
  noiseAmount : ℚ
  deriving DecidableEq

/-- The discrete Kiki parameter mapping as written in `generateKikiSound`:
`bpm = 60 + rhythm*240`, `filterCutoff = 500 + (warmth+1)*2000`,
bass `Q = 1 + saturation*10`, `noiseAmount = texture`. -/
def kikiParams (a : AnalysisRecord) : KikiParams :=
  { bpm := 60 + a.rhythm * 240,
    filterCutoff := discreteFilterCutoff a.warmth,
    filterQ := 1 + a.saturation * 10,
    noiseAmount := a.texture }

/-- Modelled from the spec's words, for comparison with the source (C3): the
record with warmth clamped into [-1,1] and saturation/texture into [0,1]
before any parameter is derived. -/
def clampFeatures (a : AnalysisRecord) : AnalysisRecord :=
  { a with
    warmth := min (max a.warmth (-1)) 1,
    saturation := min (max a.saturation 0) 1,
    texture := min (max a.texture 0) 1 }

/-! ## WAV export (`encodeWAV` / `renderAudioToWav` in audioExport) -/

/-- The rendered `AudioBuffer` handed to `encodeWAV`: channel count, sample
rate, frame count, and per-channel sample data (`channelData ch i`). -/
structure AudioBufferModel where
  numberOfChannels : ℕ
  sampleRate : ℕ
  length : ℕ
  channelData : ℕ → ℕ → ℚ

/-- Model of `DataView.setUint8`: write one byte (wrapping mod 256). -/
def setUint8 (st : ℕ → ℕ) (off v : ℕ) : ℕ → ℕ :=
  fun i => if i = off then v % 256 else st i

/-- Model of `DataView.setUint16(off, v, true)`: two bytes, little-endian. -/
def setUint16LE (st : ℕ → ℕ) (off v : ℕ) : ℕ → ℕ :=
  setUint8 (setUint8 st off v) (off + 1) (v / 256)

/-- Model of `DataView.setUint32(off, v, true)`: four bytes, little-endian. -/
def setUint32LE (st : ℕ → ℕ) (off v : ℕ) : ℕ → ℕ :=
  setUint8 (setUint8 (setUint8 (setUint8 st off v) (off + 1) (v / 256))
    (off + 2) (v / 65536)) (off + 3) (v / 16777216)

/-- Model of `DataView.setInt16(off, v, true)`: the two's-complement 16-bit image of
`v`, little-endian. -/
def setInt16LE (st : ℕ → ℕ) (off : ℕ) (v : ℤ) : ℕ → ℕ :=
  setUint16LE st off (v % 65536).toNat

/-- Model of `writeString(offset, s)`: successive `setUint8` of the character codes. -/
def writeString (st : ℕ → ℕ) (off : ℕ) (s : String) : ℕ → ℕ :=
  s.toList.enum.foldl (fun acc p => setUint8 acc (off + p.1) p.2.toNat) st

/-- The 44-byte RIFF/WAVE header writes of `encodeWAV`, in source order, over
a zero-initialised `ArrayBuffer`. -/
def wavHeaderStore (b : AudioBufferModel) : ℕ → ℕ :=
  let numChannels := b.numberOfChannels
  let sampleRate := b.sampleRate
  let bytesPerSample := 2
  let blockAlign := numChannels * bytesPerSample
  let dataSize := b.length * blockAlign
  let st0 : ℕ → ℕ := fun _ => 0
  let st1 := writeString st0 0 "RIFF"
  let st2 := setUint32LE st1 4 (36 + dataSize)
  let st3 := writeString st2 8 "WAVE"
  let st4 := writeString st3 12 "fmt "
  let st5 := setUint32LE st4 16 16
  let st6 := setUint16LE st5 20 1
  let st7 := setUint16LE st6 22 numChannels
  let st8 := setUint32LE st7 24 sampleRate
  let st9 := setUint32LE st8 28 (sampleRate * blockAlign)
  let st10 := setUint16LE st9 32 blockAlign
  let st11 := setUint16LE st10 34 16
  let st12 := writeString st11 36 "data"
  setUint32LE st12 40 dataSize

/-- The per-sample conversion of `encodeWAV`: clamp to [-1,1], scale by
0x8000 (negative) or 0x7FFF (non-negative), truncate toward zero. -/
def int16OfSample (q : ℚ) : ℤ :=
  let sample := max (-1) (min 1 q)
  ratTrunc (if sample < 0 then sample * 32768 else sample * 32767)

/-- The interleaved int16 frame values, iterating samples then channels. -/
def wavFrames (b : AudioBufferModel) : List ℤ :=
  (List.range b.length).flatMap fun i =>
    (List.range b.numberOfChannels).map fun ch => int16OfSample (b.channelData ch i)

/-- The interleaving loop: `setInt16` at offset 44, 46, 48, …. -/
def writeFrames (vals : List ℤ) (st : ℕ → ℕ) (off : ℕ) : ℕ → ℕ :=
  match vals with
  | [] => st
  | v :: rest => writeFrames rest (setInt16LE st off v) (off + 2)

/-- Model of `encodeWAV(audioBuffer)`: the byte content of the produced WAV blob. -/
def encodeWAV (b : AudioBufferModel) : List ℕ :=
  let dataSize := b.length * (b.numberOfChannels * 2)
  let st := writeFrames (wavFrames b) (wavHeaderStore b) 44
  (List.range (44 + dataSize)).map st

/-- Model of `renderAudioToWav` fixes `sampleRate = 44100` for its
`OfflineAudioContext`. -/
def offlineRenderSampleRate : ℕ := 44100

/-- Model of `renderAudioToWav` renders into 2 channels. -/
def offlineRenderChannels : ℕ := 2

/-! ## Angularity analysis (angularityAnalysis module)

Pixel buffers are modelled as `data : ℕ → ℚ` (flat RGBA, row-major, as a
JavaScript typed array read by index); only indices the source writes/reads
in bounds are relevant.  `Float32Array` entries the source never writes stay
at their zero initialisation, hence the `else 0` branches. -/

/-- JavaScript `%` (remainder with the dividend's sign) on numbers. -/
def jsFmod (a b : ℚ) : ℚ := a - b * ratTrunc (a / b)

/-- Mean-of-RGB luminance of pixel `(x, y)`. -/
def lumAt (data : ℕ → ℚ) (width x y : ℕ) : ℚ :=
  let idx := (y * width + x) * 4
  (data idx + data (idx + 1) + data (idx + 2)) / 3

/-- Model of `buildEdgeMap` magnitude at `(x, y)`:
`sqrt(gx² + gy²)` for interior pixels, 0 (unwritten) elsewhere. -/
def edgeMagAt (ops : FloatOps) (data : ℕ → ℚ) (width height x y : ℕ) : ℚ :=
  if 1 ≤ x ∧ x < width - 1 ∧ 1 ≤ y ∧ y < height - 1 then
    let gx := lumAt data width x y - lumAt data width (x + 1) y
    let gy := lumAt data width x y - lumAt data width x (y + 1)
    ops.sqrt (gx * gx + gy * gy)
  else 0

/-- Model of `buildEdgeMap` direction at `(x, y)`: `atan2(gy, gx)` for interior
pixels, 0 elsewhere. -/
def edgeDirAt (ops : FloatOps) (data : ℕ → ℚ) (width height x y : ℕ) : ℚ :=
  if 1 ≤ x ∧ x < width - 1 ∧ 1 ≤ y ∧ y < height - 1 then
    let gx := lumAt data width x y - lumAt data width (x + 1) y
    let gy := lumAt data width x y - lumAt data width x (y + 1)
    ops.atan2 gy gx
  else 0

/-- The pixels visited by the metric loops `for y in [1, h-1) for x in [1, w-1)`. -/
def interiorPix (width height : ℕ) : Finset (ℕ × ℕ) :=
  (Finset.range width ×ˢ Finset.range height).filter fun p =>
    1 ≤ p.1 ∧ p.1 < width - 1 ∧ 1 ≤ p.2 ∧ p.2 < height - 1

/-- The pixels visited by the sharpness loops `for y in [2, h-2) for x in [2, w-2)`. -/
def interiorPix2 (width height : ℕ) : Finset (ℕ × ℕ) :=
  (Finset.range width ×ˢ Finset.range height).filter fun p =>
    2 ≤ p.1 ∧ p.1 < width - 2 ∧ 2 ≤ p.2 ∧ p.2 < height - 2

/-- The direction-histogram bin:
`Math.floor(((angle + π) % (2π)) / (2π) * 8) % 8`. -/
def directionBin (ops : FloatOps) (angle : ℚ) : ℤ :=
  let normalized := jsFmod (angle + ops.pi) (2 * ops.pi)
  Int.tmod ⌊normalized / (2 * ops.pi) * 8⌋ 8

/-- METRIC 1, `computeDirectionClustering`: top-2-of-8 direction-bin
concentration among super-threshold edges, 0.5 below 30 edges. -/
def computeDirectionClustering (ops : FloatOps) (em ed : ℕ → ℕ → ℚ)
    (width height : ℕ) (threshold : ℚ) : ℚ :=
  let edges := (interiorPix width height).filter fun p => em p.1 p.2 > threshold
  let totalEdges := edges.card
  if totalEdges < 30 then 0.5
  else
    let bins := (List.range 8).map fun b =>
      (((edges.filter fun p => directionBin ops (ed p.1 p.2) = (b : ℤ)).card : ℚ))
    let sortedBins := bins.mergeSort fun u v => v ≤ u
    let topBinsSum := sortedBins.getD 0 0 + sortedBins.getD 1 0
    let clusteringRatio := topBinsSum / totalEdges
    min (max ((clusteringRatio - 0.25) / 0.75) 0) 1

/-- METRIC 2, `computeEdgeContrast`: mean super-threshold magnitude mapped by
`(avg - 20) / 60`, 0.5 below 30 edges. -/
def computeEdgeContrast (em : ℕ → ℕ → ℚ) (width height : ℕ) (threshold : ℚ) : ℚ :=
  let edges := (interiorPix width height).filter fun p => em p.1 p.2 > threshold
  let edgeCount := edges.card
  if edgeCount < 30 then 0.5
  else
    let totalMagnitude := ∑ p ∈ edges, em p.1 p.2
    let avgMagnitude := totalMagnitude / edgeCount
    min (max ((avgMagnitude - 20) / 60) 0) 1

/-- Wrapped angular difference: `|a - b|`, folded to `≤ π`. -/
def angDiff (ops : FloatOps) (a b : ℚ) : ℚ :=
  let d := |a - b|
  if d > ops.pi then 2 * ops.pi - d else d

/-- METRIC 3, `computeDirectionChangeSharpness`: fraction of
super-threshold 4-neighbour pairs whose wrapped direction difference exceeds
π/4, scaled by 1/0.35; 0.5 below 30 compared pairs. -/
def computeDirectionChangeSharpness (ops : FloatOps) (em ed : ℕ → ℕ → ℚ)
    (width height : ℕ) (threshold : ℚ) : ℚ :=
  let centers := (interiorPix2 width height).filter fun p => em p.1 p.2 > threshold
  let nbs : ℕ × ℕ → List (ℕ × ℕ) := fun p =>
    [(p.1, p.2 - 1), (p.1, p.2 + 1), (p.1 - 1, p.2), (p.1 + 1, p.2)]
  let totalChecked := ∑ p ∈ centers,
    ((nbs p).filter fun q => em q.1 q.2 > threshold).length
  let sharpChanges := ∑ p ∈ centers,
    ((nbs p).filter fun q =>
      em q.1 q.2 > threshold ∧ angDiff ops (ed p.1 p.2) (ed q.1 q.2) > ops.pi / 4).length
  if totalChecked < 30 then 0.5
  else
    let sharpRatio := (sharpChanges : ℚ) / (totalChecked : ℚ)
    min (sharpRatio / 0.35) 1

/-- Model of `computeScaleMetrics`: the three metrics at threshold 15. -/
def computeScaleMetrics (ops : FloatOps) (data : ℕ → ℚ) (width height : ℕ) :
    ScaleMetrics :=
  let threshold : ℚ := 15
  let em := edgeMagAt ops data width height
  let ed := edgeDirAt ops data width height
  { directionClustering := computeDirectionClustering ops em ed width height threshold,
    edgeContrast := computeEdgeContrast em width height threshold,
    directionChangeSharpness := computeDirectionChangeSharpness ops em ed width height threshold }

/-- Model of `downsample`: box-filter averaging per `factor × factor` cell; returns
the new data function and the new dimensions. -/
def downsample (data : ℕ → ℚ) (width height factor : ℕ) : (ℕ → ℚ) × ℕ × ℕ :=
  let newWidth := width / factor
  let newHeight := height / factor
  let newData : ℕ → ℚ := fun idx =>
    let ch := idx % 4
    let pix := idx / 4
    let x := pix % newWidth
    let y := pix / newWidth
    let valid := (Finset.range factor ×ˢ Finset.range factor).filter fun d =>
      x * factor + d.2 < width ∧ y * factor + d.1 < height
    let total := ∑ d ∈ valid,
      data (((y * factor + d.1) * width + (x * factor + d.2)) * 4 + ch)
    total / valid.card
  (newData, newWidth, newHeight)

/-- The result of `computeAngularity` (scale-blended sub-metrics included). -/
structure AngularityResult where
  angularity : ℚ
  directionClustering : ℚ
  edgeContrast : ℚ
  directionChangeSharpness : ℚ
  deriving DecidableEq

/-- Model of `computeAngularity`: single-scale fallback below 100×100, otherwise the
1×/2×/4× multi-scale blend. -/
def computeAngularity (ops : FloatOps) (data : ℕ → ℚ) (width height : ℕ) :
    AngularityResult :=
  if width < 100 ∨ height < 100 then
    let metrics := computeScaleMetrics ops data width height
    let angularity :=
      metrics.directionClustering * 0.30 +
      metrics.edgeContrast * 0.35 +
      metrics.directionChangeSharpness * 0.35
    { angularity := min (max angularity 0) 1,
      directionClustering := metrics.directionClustering,
      edgeContrast := metrics.edgeContrast,
      directionChangeSharpness := metrics.directionChangeSharpness }
  else
    let scale1 := computeScaleMetrics ops data width height
    let down2 := downsample data width height 2
    let scale2 := computeScaleMetrics ops down2.1 down2.2.1 down2.2.2
    let down4 := downsample data width height 4
    let scale3 := computeScaleMetrics ops down4.1 down4.2.1 down4.2.2
    let directionClustering :=
      scale1.directionClustering * 0.20 +
      scale2.directionClustering * 0.35 +
      scale3.directionClustering * 0.45
    let edgeContrast :=
      scale1.edgeContrast * 0.80 +
      scale2.edgeContrast * 0.15 +
      scale3.edgeContrast * 0.05
    let directionChangeSharpness :=
      scale1.directionChangeSharpness * 0.20 +
      scale2.directionChangeSharpness * 0.35 +
      scale3.directionChangeSharpness * 0.45
    let angularity :=
      directionClustering * 0.25 +
      edgeContrast * 0.50 +
      directionChangeSharpness * 0.25
    { angularity := min (max angularity 0) 1,
      directionClustering := directionClustering,
      edgeContrast := edgeContrast,
      directionChangeSharpness := directionChangeSharpness }

/-! ## Feature extraction (imageAnalysis module) -/

/-- The canvas dimensions handed to `analyzeImage`. -/
structure Canvas where
  width : ℕ
  height : ℕ
  deriving DecidableEq

/-- A sampler output entry: the `samplePoint` fields plus the pixel
coordinates the sampler records. -/
structure SampleXY where
  brightness : ℚ
  angularity : ℚ
  x : ℤ
  y : ℤ
  deriving DecidableEq

/-- Model of `samplePoint`: brightness plus 5×5-neighbourhood local angularity, with
the out-of-bounds guard returning zeros. -/
def samplePoint (data : ℕ → ℚ) (c : Canvas) (x y : ℤ) : Sample :=
  if x < 0 ∨ (c.width : ℤ) ≤ x ∨ y < 0 ∨ (c.height : ℤ) ≤ y then ⟨0, 0⟩
  else
    let idx := (y.toNat * c.width + x.toNat) * 4
    let brightness := (data idx + data (idx + 1) + data (idx + 2)) / 3 / 255
    let valid := ((Finset.Icc (-2 : ℤ) 2) ×ˢ (Finset.Icc (-2 : ℤ) 2)).filter fun d =>
      0 ≤ x + d.2 ∧ x + d.2 < c.width ∧ 0 ≤ y + d.1 ∧ y + d.1 < c.height
    let localEdge := ∑ d ∈ valid,
      |brightness * 255 -
        (data (((y + d.1).toNat * c.width + (x + d.2).toNat) * 4) +
         data (((y + d.1).toNat * c.width + (x + d.2).toNat) * 4 + 1) +
         data (((y + d.1).toNat * c.width + (x + d.2).toNat) * 4 + 2)) / 3|
    let edgeCount := valid.card
    ⟨brightness, min (localEdge / edgeCount / 30) 1⟩

/-- The full-image argmax scan opening `sampleBrightness`:
`(maxBright, startX, startY)` with strict improvement, row-major order. -/
def brightestPixel (data : ℕ → ℚ) (c : Canvas) : ℚ × ℕ × ℕ :=
  ((List.range c.height).flatMap fun y =>
    (List.range c.width).map fun x => (x, y)).foldl
    (fun acc p =>
      let idx := (p.2 * c.width + p.1) * 4
      let bright := (data idx + data (idx + 1) + data (idx + 2)) / 3
      if bright > acc.1 then (bright, p.1, p.2) else acc)
    (-1, 0, 0)

/-- The test `minDist < 20` on the folded `Math.min` result (`Infinity` when no
visited point exists). -/
def distTooClose (minDist : Option ℚ) : Bool :=
  match minDist with
  | some m => decide (m < 20)
  | none => false

/-- One greedy step of `sampleBrightness`: brightest stride-4 grid point at
distance ≥ 20 from every visited point (`(nextBright, nextX, nextY)`,
defaulting to `(-1, 0, 0)` when no candidate qualifies). -/
def nextBrightest (ops : FloatOps) (data : ℕ → ℚ) (c : Canvas)
    (visited : List (ℕ × ℕ)) : ℚ × ℕ × ℕ :=
  ((List.range (strideCount 0 c.height 4)).flatMap fun ky =>
    (List.range (strideCount 0 c.width 4)).map fun kx => (4 * kx, 4 * ky)).foldl
    (fun acc p =>
      if visited.contains p then acc
      else
        let minDist := (visited.map fun v =>
          ops.sqrt (((p.1 : ℚ) - (v.1 : ℚ)) ^ 2 + ((p.2 : ℚ) - (v.2 : ℚ)) ^ 2)).min?
        if distTooClose minDist then acc
        else
          let idx := (p.2 * c.width + p.1) * 4
          let bright := (data idx + data (idx + 1) + data (idx + 2)) / 3
          if bright > acc.1 then (bright, p.1, p.2) else acc)
    (-1, 0, 0)

/-- One loop body of `sampleBrightness`: the seeded greedy pathfinding
sampler.  `visited` (`st.2`) is the JavaScript string `Set` (insertion order,
duplicate inserts ignored); the sample is pushed unconditionally. -/
def sampleBrightnessStep (ops : FloatOps) (data : ℕ → ℚ) (c : Canvas)
    (st : List SampleXY × List (ℕ × ℕ)) (_i : ℕ) :
    List SampleXY × List (ℕ × ℕ) :=
  let nb := nextBrightest ops data c st.2
  let pt := (nb.2.1, nb.2.2)
  let sp := samplePoint data c pt.1 pt.2
  (st.1 ++ [⟨sp.brightness, sp.angularity, pt.1, pt.2⟩],
   if st.2.contains pt then st.2 else st.2 ++ [pt])

/-- Model of `sampleBrightness` (cont.): seed with the global argmax, then
`numSamples - 1` greedy steps. -/
def sampleBrightness (ops : FloatOps) (data : ℕ → ℚ) (c : Canvas)
    (numSamples : ℕ) : List SampleXY :=
  let b0 := brightestPixel data c
  let startX := b0.2.1
  let startY := b0.2.2
  let s0 := samplePoint data c startX startY
  let init : List SampleXY × List (ℕ × ℕ) :=
    ([⟨s0.brightness, s0.angularity, startX, startY⟩], [(startX, startY)])
  ((List.range (numSamples - 1)).foldl (sampleBrightnessStep ops data c) init).1

/-- Model of `sampleEdges`: gradient-ranked stride-2 pixels, evenly-spaced picks from
the descending sort, padded to `numSamples` with rng-positioned points. -/
def sampleEdges (rng : ℕ → ℚ) (data : ℕ → ℚ) (c : Canvas)
    (numSamples : ℕ) : List SampleXY :=
  let edgePoints := (((List.range (strideCount 1 (c.height - 1) 2)).flatMap fun ky =>
    (List.range (strideCount 1 (c.width - 1) 2)).map fun kx =>
      (1 + 2 * kx, 1 + 2 * ky)).filterMap fun p =>
    let idx := (p.2 * c.width + p.1) * 4
    let center := (data idx + data (idx + 1) + data (idx + 2)) / 3
    let rightIdx := (p.2 * c.width + (p.1 + 1)) * 4
    let right := (data rightIdx + data (rightIdx + 1) + data (rightIdx + 2)) / 3
    let bottomIdx := ((p.2 + 1) * c.width + p.1) * 4
    let bottom := (data bottomIdx + data (bottomIdx + 1) + data (bottomIdx + 2)) / 3
    let gradient := |center - right| + |center - bottom|
    if gradient > 30 then some (p.1, p.2, gradient) else none)
  let sorted := edgePoints.mergeSort fun u v => v.2.2 ≤ u.2.2
  let step := max 1 (edgePoints.length / numSamples)
  let picks := (List.range numSamples).filterMap fun i =>
    if i * step < sorted.length then
      let pt := sorted.getD (i * step) (0, 0, 0)
      let sp := samplePoint data c pt.1 pt.2.1
      some ⟨sp.brightness, sp.angularity, pt.1, pt.2.1⟩
    else none
  let pads := (List.range (numSamples - picks.length)).map fun k =>
    let x := ⌊rng (2 * k) * (c.width : ℚ)⌋
    let y := ⌊rng (2 * k + 1) * (c.height : ℚ)⌋
    let sp := samplePoint data c x y
    (⟨sp.brightness, sp.angularity, x, y⟩ : SampleXY)
  picks ++ pads

/-- The fixed 16-point normalized-coordinate pattern of `sampleScattered`. -/
def scatterPattern : List (ℚ × ℚ) :=
  [(0.1, 0.1), (0.3, 0.2), (0.6, 0.15), (0.9, 0.25),
   (0.2, 0.4), (0.5, 0.35), (0.8, 0.45), (0.15, 0.6),
   (0.4, 0.55), (0.7, 0.65), (0.25, 0.75), (0.55, 0.8),
   (0.85, 0.75), (0.35, 0.9), (0.65, 0.95), (0.45, 0.5)]

/-- Model of `sampleScattered` (the 'random' method): deterministic fixed pattern. -/
def sampleScattered (data : ℕ → ℚ) (c : Canvas) : List SampleXY :=
  scatterPattern.map fun pq =>
    let x := ⌊pq.1 * (c.width : ℚ)⌋
    let y := ⌊pq.2 * (c.height : ℚ)⌋
    let sp := samplePoint data c x y
    ⟨sp.brightness, sp.angularity, x, y⟩

/-- Model of `sampleRegions`: per-cell averages over the 4×4 grid, stride-2 scan. -/
def sampleRegions (data : ℕ → ℚ) (c : Canvas) : List SampleXY :=
  let gridSize := 4
  let cellWidth := c.width / gridSize
  let cellHeight := c.height / gridSize
  ((List.range gridSize).flatMap fun gy =>
    (List.range gridSize).map fun gx => (gx, gy)).map fun g =>
    let startX := g.1 * cellWidth
    let startY := g.2 * cellHeight
    let endX := min ((g.1 + 1) * cellWidth) c.width
    let endY := min ((g.2 + 1) * cellHeight) c.height
    let cells := (List.range (strideCount startY endY 2)).flatMap fun ky =>
      (List.range (strideCount startX endX 2)).map fun kx =>
        (startX + 2 * kx, startY + 2 * ky)
    let sumBrightness := (cells.map fun p => (samplePoint data c p.1 p.2).brightness).sum
    let sumEdge := (cells.map fun p => (samplePoint data c p.1 p.2).angularity).sum
    let count := cells.length
    let centerX := startX + (endX - startX) / 2
    let centerY := startY + (endY - startY) / 2
    ⟨sumBrightness / count, sumEdge / count, centerX, centerY⟩

/-- The spread `Math.min(...l)` over a non-empty list (the empty case is never hit). -/
def listMin : List ℚ → ℚ
  | [] => 0
  | x :: xs => xs.foldl min x

/-- The spread `Math.max(...l)` over a non-empty list. -/
def listMax : List ℚ → ℚ
  | [] => 0
  | x :: xs => xs.foldl max x

inductive SamplingMethod
  | brightness | edges | random | regions
  deriving DecidableEq

/-- The overall mean-luminance brightness loop of `analyzeImage`
(`totalBrightness / pixelCount / 255`). -/
def imageBrightness (c : Canvas) (data : ℕ → ℚ) : ℚ :=
  let pixelCount := c.width * c.height
  (∑ i ∈ Finset.range pixelCount,
    (data (4 * i) + data (4 * i + 1) + data (4 * i + 2)) / 3) / pixelCount / 255

/-- Normalized mean of one RGBA channel (`off` = 0/1/2 for R/G/B), from the
colour-extraction loop of `analyzeImage`. -/
def channelMean (c : Canvas) (data : ℕ → ℚ) (off : ℕ) : ℚ :=
  (∑ i ∈ Finset.range (c.width * c.height), data (4 * i + off)) /
    (c.width * c.height) / 255

/-- The texture/grain loop of `analyzeImage`: mean 8-neighbour variation over
the stride-2 grid `[2, dim-2)`, normalized by 30 and clamped. -/
def imageTexture (c : Canvas) (data : ℕ → ℚ) : ℚ :=
  let texPts := (List.range (strideCount 2 (c.height - 2) 2)).flatMap fun ky =>
    (List.range (strideCount 2 (c.width - 2) 2)).map fun kx =>
      (2 + 2 * kx, 2 + 2 * ky)
  let highFreqDetail := (texPts.map fun p =>
    let idx := (p.2 * c.width + p.1) * 4
    let centerBright := (data idx + data (idx + 1) + data (idx + 2)) / 3
    let nbs : List (ℕ × ℕ) :=
      [(p.1 - 1, p.2 - 1), (p.1, p.2 - 1), (p.1 + 1, p.2 - 1),
       (p.1 - 1, p.2), (p.1 + 1, p.2),
       (p.1 - 1, p.2 + 1), (p.1, p.2 + 1), (p.1 + 1, p.2 + 1)]
    let localVariation := (nbs.map fun q =>
      let nidx := (q.2 * c.width + q.1) * 4
      |centerBright - (data nidx + data (nidx + 1) + data (nidx + 2)) / 3|).sum
    localVariation / 8).sum
  min (highFreqDetail / texPts.length / 30) 1

/-- The sampling-method dispatch of `analyzeImage` (`numSamples = 16`). -/
def samplesFor (ops : FloatOps) (rng : ℕ → ℚ) (c : Canvas) (data : ℕ → ℚ) :
    SamplingMethod → List SampleXY
  | .brightness => sampleBrightness ops data c 16
  | .edges => sampleEdges rng data c 16
  | .random => sampleScattered data c
  | .regions => sampleRegions data c

/-- The brightness min-max normalization of `analyzeImage`: rescale across
the samples unless the range is below 0.01. -/
def segmentDataOf (samples : List SampleXY) : List Sample :=
  let brightnesses := samples.map (·.brightness)
  let minBright := listMin brightnesses
  let maxBright := listMax brightnesses
  let range := maxBright - minBright
  if range > 0.01 then
    samples.map fun s => ⟨(s.brightness - minBright) / range, s.angularity⟩
  else
    samples.map fun s => ⟨s.brightness, s.angularity⟩

/-- The statistic `rhythm`: mean absolute consecutive difference of segment brightness. -/
def rhythmOf (segmentData : List Sample) : ℚ :=
  (∑ i ∈ Finset.range (segmentData.length - 1),
    |(segmentData.getD (i + 1) ⟨0, 0⟩).brightness -
      (segmentData.getD i ⟨0, 0⟩).brightness|) /
    ((segmentData.length - 1 : ℕ) : ℚ)

/-- The statistic `complexity`: `min((stddev(brightness) + stddev(angularity)) * 3, 1)`. -/
def complexityOf (ops : FloatOps) (segmentData : List Sample) : ℚ :=
  let avgSegBrightness := (segmentData.map (·.brightness)).sum / segmentData.length
  let avgSegAngularity := (segmentData.map (·.angularity)).sum / segmentData.length
  let brightnessVarSum :=
    (segmentData.map fun s => (s.brightness - avgSegBrightness) ^ 2).sum
  let angularityVarSum :=
    (segmentData.map fun s => (s.angularity - avgSegAngularity) ^ 2).sum
  let brightnessStdDev := ops.sqrt (brightnessVarSum / segmentData.length)
  let angularityStdDev := ops.sqrt (angularityVarSum / segmentData.length)
  min ((brightnessStdDev + angularityStdDev) * 3) 1

/-- The 32-bin brightness histogram of `analyzeImage` (raw counts). -/
def histogramOf (c : Canvas) (data : ℕ → ℚ) : List ℚ :=
  (List.range 32).map fun b =>
    (((Finset.range (c.width * c.height)).filter fun i =>
      min ⌊(data (4 * i) + data (4 * i + 1) + data (4 * i + 2)) / 3 / 255 * 32⌋ 31
        = (b : ℤ)).card : ℚ)

/-- Model of `analyzeImage(canvas, samplingMethod)`.  The ambient `Math.random`
stream is `rng` (consumed only by the edge sampler's padding); the empty
canvas guard returns `none` for the thrown error. -/
def analyzeImage (ops : FloatOps) (rng : ℕ → ℚ) (c : Canvas) (data : ℕ → ℚ)
    (samplingMethod : SamplingMethod) : Option AnalysisRecord :=
  if c.width * c.height * 4 = 0 then none
  else
    let angularityResult := computeAngularity ops data c.width c.height
    let avgR := channelMean c data 0
    let avgG := channelMean c data 1
    let avgB := channelMean c data 2
    let samples := samplesFor ops rng c data samplingMethod
    let segmentData := segmentDataOf samples
    let histogram := histogramOf c data
    some
      { brightness := imageBrightness c data,
        angularity := angularityResult.angularity,
        complexity := complexityOf ops segmentData,
        rhythm := rhythmOf segmentData,
        warmth := avgR - avgB,
        saturation := max avgR (max avgG avgB) - min avgR (min avgG avgB),
        texture := imageTexture c data,
        segmentData := segmentData,
        samplingPoints := samples.map fun s => (s.x, s.y),
        histogram := histogram.map fun v => v / listMax histogram,
        angularityMetrics :=
          ⟨angularityResult.directionClustering,
           angularityResult.edgeContrast,
           angularityResult.directionChangeSharpness⟩ }

/-! ## Concrete instances used by witnesses and counterexamples -/

/-- A concrete `FloatOps` instance (`sqrt 0 = 0`, positive `pow2`). -/
def opsConst : FloatOps := ⟨fun _ => 0, fun _ _ => 0, fun _ => 1, 0⟩

/-- Sixteen identical mid-brightness segments. -/
def seg16 : List Sample :=
  [⟨1/2, 0⟩, ⟨1/2, 0⟩, ⟨1/2, 0⟩, ⟨1/2, 0⟩, ⟨1/2, 0⟩, ⟨1/2, 0⟩, ⟨1/2, 0⟩, ⟨1/2, 0⟩,
   ⟨1/2, 0⟩, ⟨1/2, 0⟩, ⟨1/2, 0⟩, ⟨1/2, 0⟩, ⟨1/2, 0⟩, ⟨1/2, 0⟩, ⟨1/2, 0⟩, ⟨1/2, 0⟩]

/-- A concrete flat analysis record: complexity 0, texture 0.5, sixteen
mid-brightness segments. -/
def flatRecord : AnalysisRecord :=
  { complexity := 0, texture := 0.5, segmentData := seg16 }

/-- A concrete smooth analysis record: complexity 1 (FM melody path). -/
def smoothRecord : AnalysisRecord :=
  { complexity := 1, texture := 0.5, segmentData := seg16 }

/-! ## Helper lemmas -/

theorem clamp_fixed_iff {lo hi x : ℚ} (h : lo ≤ hi) :
    min (max x lo) hi = x ↔ lo ≤ x ∧ x ≤ hi := by
  constructor
  · intro he
    refine ⟨?_, ?_⟩
    · calc lo = min lo hi := (min_eq_left h).symm
        _ ≤ min (max x lo) hi := by gcongr; exact le_max_right x lo
        _ = x := he
    · rw [← he]; exact min_le_right _ _
  · rintro ⟨h1, h2⟩
    rw [max_eq_left h1, min_eq_left h2]

/-! ## C5: mode dispatch and continuous intensity -/

/-- C5: in the v2 engine, angularity above 0.5 selects Kiki with intensity
`(angularity - 0.5)/0.5` and angularity at or below 0.5 selects Bouba with
intensity `(0.5 - angularity)/0.5` (0 at the midpoint, 1 at the extremes);
the discrete engine switches from Bouba to Kiki exactly at 0.5. -/
theorem v2_intensity_discrete_switch (angularity : ℚ) :
    (0.5 < angularity →
      generateSoundV2Select angularity = (.kiki, (angularity - 0.5) / 0.5) ∧
      generateSoundMode angularity = .kiki) ∧
    (angularity ≤ 0.5 →
      generateSoundV2Select angularity = (.bouba, (0.5 - angularity) / 0.5) ∧
      generateSoundMode angularity = .bouba) ∧
    (generateSoundV2Select 0.5).2 = 0 ∧
    (generateSoundV2Select 1).2 = 1 ∧
    (generateSoundV2Select 0).2 = 1 := by
  refine ⟨fun h => ?_, fun h => ?_, ?_, ?_, ?_⟩
  · constructor
    · simp only [generateSoundV2Select, gt_iff_lt, if_pos h]
    · simp only [generateSoundMode, gt_iff_lt, if_pos h]
  · constructor
    · simp only [generateSoundV2Select, gt_iff_lt, if_neg (not_lt.mpr h)]
    · simp only [generateSoundMode, gt_iff_lt, if_neg (not_lt.mpr h)]
  · norm_num [generateSoundV2Select]
  · norm_num [generateSoundV2Select]
  · norm_num [generateSoundV2Select]

/-- Witness for C5 at angularity 0.75 (Kiki) and 0.25 (Bouba). -/
theorem v2_intensity_discrete_switch_witness :
    generateSoundV2Select (3/4) = (.kiki, 1/2) ∧ generateSoundMode (1/4) = .bouba := by
  have h1 := (v2_intensity_discrete_switch (3/4)).1 (by norm_num)
  have h2 := (v2_intensity_discrete_switch (1/4)).2.1 (by norm_num)
  refine ⟨?_, h2.2⟩
  rw [h1.1]
  norm_num

/-! ## C3: the mapper never fails, but clamps only the master volume -/

/-- C3 (amended): the discrete Kiki parameter mapping is total, and the
master volume is clamped into [0,1]; however the derived parameters equal
those of the feature-clamped record exactly when warmth, saturation and
texture already lie in their documented ranges — out-of-range features are
used raw, not clamped. -/
theorem mapper_total_volume_clamped (a : AnalysisRecord) (v : ℚ) :
    (kikiParams a = kikiParams (clampFeatures a) ↔
      -1 ≤ a.warmth ∧ a.warmth ≤ 1 ∧ 0 ≤ a.saturation ∧ a.saturation ≤ 1 ∧
      0 ≤ a.texture ∧ a.texture ≤ 1) ∧
    0 ≤ clampedVolume v ∧ clampedVolume v ≤ 1 := by
  refine ⟨?_, le_max_left _ _, max_le (by norm_num) (min_le_left _ _)⟩
  constructor
  · intro he
    have h1 := congrArg KikiParams.filterCutoff he
    have h2 := congrArg KikiParams.filterQ he
    have h3 := congrArg KikiParams.noiseAmount he
    simp only [kikiParams, clampFeatures, discreteFilterCutoff] at h1 h2 h3
    have hw : min (max a.warmth (-1)) 1 = a.warmth := by linarith
    have hs : min (max a.saturation 0) 1 = a.saturation := by linarith
    have ht : min (max a.texture 0) 1 = a.texture := h3.symm
    have hw2 := (clamp_fixed_iff (by norm_num)).mp hw
    have hs2 := (clamp_fixed_iff (by norm_num)).mp hs
    have ht2 := (clamp_fixed_iff (by norm_num)).mp ht
    exact ⟨hw2.1, hw2.2, hs2.1, hs2.2, ht2.1, ht2.2⟩
  · rintro ⟨hw1, hw2, hs1, hs2, ht1, ht2⟩
    simp only [kikiParams, clampFeatures, discreteFilterCutoff]
    rw [(clamp_fixed_iff (by norm_num)).mpr ⟨hw1, hw2⟩,
      (clamp_fixed_iff (by norm_num)).mpr ⟨hs1, hs2⟩,
      (clamp_fixed_iff (by norm_num)).mpr ⟨ht1, ht2⟩]

/-- Witness for C3 at an in-range record and volume 2 (clamped to [0,1]). -/
theorem mapper_total_volume_clamped_witness :
    (kikiParams flatRecord = kikiParams (clampFeatures flatRecord) ↔
      -1 ≤ flatRecord.warmth ∧ flatRecord.warmth ≤ 1 ∧
      0 ≤ flatRecord.saturation ∧ flatRecord.saturation ≤ 1 ∧
      0 ≤ flatRecord.texture ∧ flatRecord.texture ≤ 1) ∧
    0 ≤ clampedVolume 2 ∧ clampedVolume 2 ≤ 1 :=
  mapper_total_volume_clamped flatRecord 2

/-- C3 counterexample: at warmth 5 the derived filter cutoff is 12500, not
the 4500 an as-if-clamped computation would give — the mapper does not clamp
out-of-range features. -/
theorem mapper_no_feature_clamp_cex :
    (kikiParams { warmth := 5 }).filterCutoff = 12500 ∧
    (kikiParams (clampFeatures { warmth := 5 })).filterCutoff = 4500 := by
  constructor <;> norm_num [kikiParams, clampFeatures, discreteFilterCutoff]

/-! ## C10: melody scale indexing stays in bounds -/

/-- C10: for segment brightness in [0,1], the melody index
`floor(brightness * 15)` lies in 0..15, so the 16-entry
`expandedMinorScale` lookup used by every engine's melody loop is in
bounds, and the melody frequencies `baseFreq * 2^(deg/12)` (Bouba) and
`baseFreq * 2 * 2^(deg/12)` (Kiki) are positive. -/
theorem melody_scale_index_safe (ops : FloatOps) (b g : ℚ)
    (hpow : ∀ x, 0 < ops.pow2 x) (hb0 : 0 ≤ b) (hb1 : b ≤ 1) (hg : 0 ≤ g) :
    0 ≤ melodyNoteIndex b ∧ melodyNoteIndex b < 16 ∧
    scaleAt (melodyNoteIndex b) = expandedMinorScale.getD (melodyNoteIndex b).toNat 0 ∧
    0 < baseFreqOf g * ops.pow2 (scaleAt (melodyNoteIndex b) / 12) ∧
    0 < baseFreqOf g * 2 * ops.pow2 (scaleAt (melodyNoteIndex b) / 12) := by
  have h0 : (0 : ℤ) ≤ melodyNoteIndex b :=
    Int.floor_nonneg.mpr (mul_nonneg hb0 (by norm_num))
  have h16 : melodyNoteIndex b < 16 := by
    have hle : b * 15 ≤ 15 := by nlinarith
    have : melodyNoteIndex b ≤ ⌊(15 : ℚ)⌋ := Int.floor_le_floor hle
    simp only [show ⌊(15 : ℚ)⌋ = 15 by norm_num] at this
    omega
  have hbase : 0 < baseFreqOf g := by unfold baseFreqOf; linarith
  refine ⟨h0, h16, ?_, ?_, ?_⟩
  · unfold scaleAt; rw [if_pos ⟨h0, h16⟩]
  · exact mul_pos hbase (hpow _)
  · exact mul_pos (mul_pos hbase (by norm_num)) (hpow _)

/-- Witness for C10 at brightness 3/4, global brightness 1/2. -/
theorem melody_scale_index_safe_witness :
    0 ≤ melodyNoteIndex (3/4) ∧ melodyNoteIndex (3/4) < 16 ∧
    scaleAt (melodyNoteIndex (3/4)) =
      expandedMinorScale.getD (melodyNoteIndex (3/4)).toNat 0 ∧
    0 < baseFreqOf (1/2) * opsConst.pow2 (scaleAt (melodyNoteIndex (3/4)) / 12) ∧
    0 < baseFreqOf (1/2) * 2 * opsConst.pow2 (scaleAt (melodyNoteIndex (3/4)) / 12) :=
  melody_scale_index_safe opsConst (3/4) (1/2)
    (fun _ => by norm_num [opsConst]) (by norm_num) (by norm_num) (by norm_num)

/-! ## C7: the deterministic sampling strategies ignore ambient randomness -/

/-- C7: re-running `analyzeImage` on the same buffer with the scattered
('random') or regions method yields the identical record — the result does
not depend on the ambient `Math.random` stream. -/
theorem analyzeImage_deterministic_methods (ops : FloatOps) (rng1 rng2 : ℕ → ℚ)
    (c : Canvas) (data : ℕ → ℚ) :
    analyzeImage ops rng1 c data .random = analyzeImage ops rng2 c data .random ∧
    analyzeImage ops rng1 c data .regions = analyzeImage ops rng2 c data .regions :=
  ⟨rfl, rfl⟩

/-! ## C4: the multi-scale blend weights -/

/-- C4: `computeAngularity` blends the per-scale metrics with weights
0.20/0.35/0.45 (clustering, sharpness) and 0.80/0.15/0.05 (contrast), and
returns `0.25·clustering + 0.50·contrast + 0.25·sharpness` clamped to [0,1];
below 100×100 it computes one scale and blends 0.30/0.35/0.35. -/
theorem computeAngularity_scale_blend (ops : FloatOps) (data : ℕ → ℚ) (w h : ℕ) :
    (100 ≤ w → 100 ≤ h →
      computeAngularity ops data w h =
        (let fine := computeScaleMetrics ops data w h
         let down2 := downsample data w h 2
         let medium := computeScaleMetrics ops down2.1 down2.2.1 down2.2.2
         let down4 := downsample data w h 4
         let coarse := computeScaleMetrics ops down4.1 down4.2.1 down4.2.2
         let clustering := fine.directionClustering * 0.20 +
           medium.directionClustering * 0.35 + coarse.directionClustering * 0.45
         let contrast := fine.edgeContrast * 0.80 +
           medium.edgeContrast * 0.15 + coarse.edgeContrast * 0.05
         let sharpness := fine.directionChangeSharpness * 0.20 +
           medium.directionChangeSharpness * 0.35 + coarse.directionChangeSharpness * 0.45
         ⟨clamp01 (0.25 * clustering + 0.50 * contrast + 0.25 * sharpness),
          clustering, contrast, sharpness⟩)) ∧
    (w < 100 ∨ h < 100 →
      computeAngularity ops data w h =
        (let m := computeScaleMetrics ops data w h
         ⟨clamp01 (0.30 * m.directionClustering + 0.35 * m.edgeContrast +
            0.35 * m.directionChangeSharpness),
          m.directionClustering, m.edgeContrast, m.directionChangeSharpness⟩)) := by
  have key : ∀ x y : ℚ, x = y → min (max x 0) 1 = min (max y 0) 1 := by
    intro x y hxy; rw [hxy]
  constructor
  · intro hw hh
    rw [computeAngularity, if_neg (by omega)]
    simp only [clamp01, AngularityResult.mk.injEq, eq_self_iff_true, and_true, true_and]
    exact key _ _ (by ring)
  · intro hsmall
    rw [computeAngularity, if_pos hsmall]
    simp only [clamp01, AngularityResult.mk.injEq, eq_self_iff_true, and_true, true_and]
    exact key _ _ (by ring)

/-- Witness for C4 through the small-image branch at 8×8. -/
theorem computeAngularity_scale_blend_witness :
    computeAngularity opsConst (fun _ => 0) 8 8 =
      (let m := computeScaleMetrics opsConst (fun _ => 0) 8 8
       ⟨clamp01 (0.30 * m.directionClustering + 0.35 * m.edgeContrast +
          0.35 * m.directionChangeSharpness),
        m.directionClustering, m.edgeContrast, m.directionChangeSharpness⟩) :=
  (computeAngularity_scale_blend opsConst (fun _ => 0) 8 8).2 (by norm_num)

/-! ## C2 machinery: every scheduled voice starts at or after the session
start -/

/-- Every voice in `vs` with a start time starts at or after `now`. -/
def startsAfter (now : ℚ) (vs : List Voice) : Prop :=
  ∀ v ∈ vs, ∀ s, v.start = some s → now ≤ s

theorem startsAfter_nil {now : ℚ} : startsAfter now [] := by
  intro v hv; cases hv

theorem startsAfter_cons {now : ℚ} {v : Voice} {vs : List Voice}
    (hv : ∀ s, v.start = some s → now ≤ s) (hvs : startsAfter now vs) :
    startsAfter now (v :: vs) := by
  intro w hw s hs
  rcases List.mem_cons.mp hw with h | h
  · exact hv s (h ▸ hs)
  · exact hvs w h s hs

theorem startsAfter_append {now : ℚ} {l1 l2 : List Voice}
    (h1 : startsAfter now l1) (h2 : startsAfter now l2) :
    startsAfter now (l1 ++ l2) := by
  intro w hw s hs
  rcases List.mem_append.mp hw with h | h
  · exact h1 w h s hs
  · exact h2 w h s hs

theorem startsAfter_flatMap {α} {now : ℚ} {l : List α} {f : α → List Voice}
    (h : ∀ x ∈ l, startsAfter now (f x)) : startsAfter now (l.flatMap f) := by
  intro w hw s hs
  rcases List.mem_flatMap.mp hw with ⟨x, hx, hwx⟩
  exact h x hx w hwx s hs

theorem startsAfter_map {α} {now : ℚ} {l : List α} {f : α → Voice}
    (h : ∀ x ∈ l, ∀ s, (f x).start = some s → now ≤ s) :
    startsAfter now (l.map f) := by
  intro w hw s hs
  rcases List.mem_map.mp hw with ⟨x, hx, hwx⟩
  exact h x hx s (hwx ▸ hs)

theorem startsAfter_ite {now : ℚ} {c : Prop} [Decidable c] {l1 l2 : List Voice}
    (h1 : startsAfter now l1) (h2 : startsAfter now l2) :
    startsAfter now (if c then l1 else l2) := by
  split <;> assumption

theorem startsAfter_noise {now t d amt : ℚ} (h : now ≤ t) :
    startsAfter now (addNoiseEvents t d amt) := by
  unfold addNoiseEvents
  split
  · exact startsAfter_nil
  · refine startsAfter_cons ?_ startsAfter_nil
    intro s hs
    simp only [noiseVoice, Option.some.injEq] at hs
    exact hs ▸ h

theorem startsAfter_noiseOff {now t d amt : ℚ} (h : now ≤ t) :
    startsAfter now (addNoiseOfflineEvents t d amt) := by
  unfold addNoiseOfflineEvents
  split
  · exact startsAfter_nil
  · refine startsAfter_cons ?_ startsAfter_nil
    intro s hs
    simp only [noiseVoice, Option.some.injEq] at hs
    exact hs ▸ h

/-- C2 (amended): every voice any discrete generator (realtime or offline,
Kiki or Bouba) schedules starts at or after the session start; the offline
Bouba melody's clamped attack+decay stays within 60% of the note duration,
and the v2 Bouba melody's safe attack+decay within 70% of the note spacing —
but (see the counterexample) the realtime discrete Bouba melody's unclamped
attack+decay can exceed the note duration. -/
theorem session_start_and_envelope (ops : FloatOps) (a : AnalysisRecord)
    (now D att dec sp : ℚ) (hD : 0 ≤ D) (hr : 0 ≤ a.rhythm) (hsp : 0 ≤ sp) :
    startsAfter now (generateBoubaSoundRT ops a now D) ∧
    startsAfter now (generateBoubaSoundOff ops a now D) ∧
    startsAfter now (generateKikiSoundRT ops a now D) ∧
    startsAfter now (generateKikiSoundOff ops a now D) ∧
    boubaOfflineAttack a.complexity (D / a.segmentData.length) +
      boubaOfflineDecay a.complexity (D / a.segmentData.length) ≤
      3 / 5 * (D / a.segmentData.length) ∧
    3 / 5 * (D / a.segmentData.length) ≤ D / a.segmentData.length ∧
    safeAttackV2 att sp + safeDecayV2 dec sp ≤ 7 / 10 * sp ∧
    7 / 10 * sp ≤ sp := by
  have hnd : (0 : ℚ) ≤ D / a.segmentData.length :=
    div_nonneg hD (Nat.cast_nonneg _)
  have hbl : (0 : ℚ) ≤ 60 / (60 + a.rhythm * 240) / 4 :=
    div_nonneg (div_nonneg (by norm_num) (by linarith)) (by norm_num)
  have hstart : ∀ (v : Voice) (t : ℚ), v.start = some t → now ≤ t →
      ∀ s, v.start = some s → now ≤ s := by
    intro v t hv ht s hs
    rw [hv] at hs; injection hs with h; exact ht.trans h.le
  have hmel : ∀ i : ℕ, now ≤ now + i * (D / a.segmentData.length) :=
    fun i => le_add_of_nonneg_right (mul_nonneg (Nat.cast_nonneg _) hnd)
  have hbeat : ∀ i : ℕ, now ≤ now + i * (60 / (60 + a.rhythm * 240) / 4) :=
    fun i => le_add_of_nonneg_right (mul_nonneg (Nat.cast_nonneg _) hbl)
  have hbeat2 : ∀ i : ℕ, now ≤ now + i * (60 / (60 + a.rhythm * 240) / 4) / 2 :=
    fun i => le_add_of_nonneg_right
      (div_nonneg (mul_nonneg (Nat.cast_nonneg _) hbl) (by norm_num))
  have hB : startsAfter now (generateBoubaSoundRT ops a now D) := by
    simp only [generateBoubaSoundRT]
    refine startsAfter_cons (hstart _ now rfl le_rfl) (startsAfter_append (startsAfter_append
      (startsAfter_noise le_rfl) ?_) ?_)
    · refine startsAfter_flatMap fun p hp => startsAfter_ite ?_ ?_
      · exact startsAfter_cons (hstart _ _ rfl (hmel p.1)) (startsAfter_noise (hmel p.1))
      · exact startsAfter_cons (hstart _ _ rfl (hmel p.1)) (startsAfter_noise (hmel p.1))
    · refine startsAfter_flatMap fun x hx => startsAfter_cons (hstart _ now rfl le_rfl)
        (startsAfter_ite (startsAfter_noise le_rfl) startsAfter_nil)
  have hBOff : startsAfter now (generateBoubaSoundOff ops a now D) := by
    simp only [generateBoubaSoundOff]
    refine startsAfter_cons (hstart _ now rfl le_rfl) (startsAfter_append (startsAfter_append
      (startsAfter_noiseOff le_rfl) ?_) ?_)
    · refine startsAfter_flatMap fun p hp => startsAfter_ite ?_ ?_
      · exact startsAfter_cons (hstart _ _ rfl (hmel p.1)) (startsAfter_noiseOff (hmel p.1))
      · exact startsAfter_cons (hstart _ _ rfl (hmel p.1)) (startsAfter_noiseOff (hmel p.1))
    · refine startsAfter_flatMap fun x hx => startsAfter_cons (hstart _ now rfl le_rfl)
        (startsAfter_ite (startsAfter_noiseOff le_rfl) startsAfter_nil)
  have hK : startsAfter now (generateKikiSoundRT ops a now D) := by
    simp only [generateKikiSoundRT]
    refine startsAfter_append (startsAfter_append (startsAfter_append ?_ ?_) ?_) ?_
    · refine startsAfter_flatMap fun i hi => startsAfter_cons (hstart _ _ rfl (hbeat i))
        (startsAfter_noise (hbeat i))
    · refine startsAfter_flatMap fun p hp => startsAfter_ite ?_ ?_
      · exact startsAfter_cons (hstart _ _ rfl (hmel p.1)) (startsAfter_noise (hmel p.1))
      · exact startsAfter_cons (hstart _ _ rfl (hmel p.1)) (startsAfter_noise (hmel p.1))
    · refine startsAfter_flatMap fun i hi => startsAfter_cons (hstart _ _ rfl (hbeat i))
        (startsAfter_ite (startsAfter_noise (hbeat i)) startsAfter_nil)
    · exact startsAfter_map fun (i : ℕ) hi => hstart _ _ rfl (hbeat2 i)
  have hKOff : startsAfter now (generateKikiSoundOff ops a now D) := by
    simp only [generateKikiSoundOff]
    refine startsAfter_append (startsAfter_append (startsAfter_append ?_ ?_) ?_) ?_
    · refine startsAfter_flatMap fun i hi => startsAfter_cons (hstart _ _ rfl (hbeat i))
        (startsAfter_noiseOff (hbeat i))
    · refine startsAfter_flatMap fun p hp => startsAfter_ite ?_ ?_
      · exact startsAfter_cons (hstart _ _ rfl (hmel p.1)) (startsAfter_noiseOff (hmel p.1))
      · exact startsAfter_cons (hstart _ _ rfl (hmel p.1)) (startsAfter_noiseOff (hmel p.1))
    · refine startsAfter_flatMap fun i hi => startsAfter_cons (hstart _ _ rfl (hbeat i))
        (startsAfter_ite (startsAfter_noiseOff (hbeat i)) startsAfter_nil)
    · exact startsAfter_map fun (i : ℕ) hi => hstart _ _ rfl (hbeat2 i)
  have hoa : boubaOfflineAttack a.complexity (D / a.segmentData.length) ≤
      D / a.segmentData.length * 0.3 := min_le_right _ _
  have hod : boubaOfflineDecay a.complexity (D / a.segmentData.length) ≤
      D / a.segmentData.length * 0.3 := min_le_right _ _
  have hsa : safeAttackV2 att sp ≤ sp * 0.4 := min_le_right _ _
  have hsd : safeDecayV2 dec sp ≤ sp * 0.3 := min_le_right _ _
  refine ⟨hB, hBOff, hK, hKOff, by linarith, by linarith, by linarith, by linarith⟩

/-- Witness for C2 at the flat record, `now = 0`, duration 5. -/
theorem session_start_and_envelope_witness :
    startsAfter 0 (generateBoubaSoundRT opsConst flatRecord 0 5) ∧
    boubaOfflineAttack flatRecord.complexity (5 / flatRecord.segmentData.length) +
      boubaOfflineDecay flatRecord.complexity (5 / flatRecord.segmentData.length) ≤
      3 / 5 * (5 / flatRecord.segmentData.length) := by
  have h := session_start_and_envelope opsConst flatRecord 0 5 (3/10) (3/10) (2/5)
    (by norm_num) (by norm_num [flatRecord]) (by norm_num)
  exact ⟨h.1, h.2.2.2.2.1⟩

/-- C2 counterexample: in the realtime discrete Bouba melody at duration 5
with complexity 0, the unclamped attack+decay (1.0) exceeds the note
duration 5/16, and the scheduled sustain breakpoint of the first melody
voice comes before its attack breakpoint (negative sustain). -/
theorem bouba_melody_negative_sustain_cex :
    boubaRawAttack flatRecord.complexity + boubaRawAttack flatRecord.complexity >
      5 / (flatRecord.segmentData.length : ℚ) ∧
    (((generateBoubaSoundRT opsConst flatRecord 0 5).getD 2 (noiseVoice 0 0 0)).gain.getD 2
        ⟨0, 0, .set⟩).t <
      (((generateBoubaSoundRT opsConst flatRecord 0 5).getD 2 (noiseVoice 0 0 0)).gain.getD 1
        ⟨0, 0, .set⟩).t := by
  constructor
  · norm_num [boubaRawAttack, flatRecord, seg16]
  · norm_num [generateBoubaSoundRT, flatRecord, seg16, List.enum, List.enumFrom,
      List.flatMap_cons, List.flatMap_nil, addNoiseEvents, noiseVoice, boubaRawAttack,
      List.getD, baseFreqOf, discreteFilterCutoff]

/-! ## C1: realtime vs. offline event lists -/

theorem addNoiseOffline_eq {t d amt : ℚ} (ht : 0 ≤ t) (hd : 0 < d) :
    addNoiseOfflineEvents t d amt = addNoiseEvents t d amt := by
  unfold addNoiseEvents addNoiseOfflineEvents
  have hiff : (amt < 0.05 ∨ d ≤ 0 ∨ t < 0) ↔ amt < 0.05 := by
    constructor
    · rintro (h | h | h)
      · exact h
      · exact absurd h (not_le.mpr hd)
      · exact absurd h (not_lt.mpr ht)
    · exact Or.inl
  rw [if_congr hiff rfl rfl]

theorem flatMap_congr_mem {α β} {l : List α} {f g : α → List β}
    (h : ∀ x ∈ l, f x = g x) : l.flatMap f = l.flatMap g := by
  induction l with
  | nil => rfl
  | cons a t ih =>
    simp only [List.flatMap_cons]
    rw [h a (List.mem_cons_self a t), ih fun x hx => h x (List.mem_cons_of_mem a hx)]

theorem snd_mem_of_mem_enum {α} {l : List α} {p : ℕ × α} (h : p ∈ l.enum) :
    p.2 ∈ l := by
  rw [List.enum_eq_zip_range] at h
  exact (List.of_mem_zip h).2

/-- C1 (amended): for in-range records the realtime and offline Kiki paths
emit identical event lists; the Bouba paths agree exactly where the offline
clamps are inactive — duration at least 5 (bass-drone and pad fades) and raw
attack/decay within 30% of the note duration (melody envelope).  Outside
those bounds the offline back-end clamps and the lists differ (see the
counterexample). -/
theorem realtime_offline_event_lists (ops : FloatOps) (a : AnalysisRecord) (now D : ℚ)
    (hnow : 0 ≤ now) (hD : 0 ≤ D) (hc : 0 ≤ a.complexity) (hr : 0 ≤ a.rhythm)
    (hang : ∀ s ∈ a.segmentData, s.angularity ≤ 1) :
    generateKikiSoundRT ops a now D = generateKikiSoundOff ops a now D ∧
    (5 ≤ D → a.segmentData.length = 16 →
      boubaRawAttack a.complexity ≤ D / 16 * 0.3 →
      generateBoubaSoundRT ops a now D = generateBoubaSoundOff ops a now D) := by
  have hbpm : (0 : ℚ) < 60 + a.rhythm * 240 := by linarith
  have hbl : (0 : ℚ) < 60 / (60 + a.rhythm * 240) / 4 :=
    div_pos (div_pos (by norm_num) hbpm) (by norm_num)
  have hKt : ∀ i : ℕ, (0 : ℚ) ≤ now + i * (60 / (60 + a.rhythm * 240) / 4) :=
    fun i => add_nonneg hnow (mul_nonneg (Nat.cast_nonneg _) hbl.le)
  have hMt : ∀ i : ℕ, (0 : ℚ) ≤ now + i * (D / a.segmentData.length) :=
    fun i => add_nonneg hnow
      (mul_nonneg (Nat.cast_nonneg _) (div_nonneg hD (Nat.cast_nonneg _)))
  constructor
  · simp only [generateKikiSoundRT, generateKikiSoundOff]
    refine congrArg₂ (· ++ ·) (congrArg₂ (· ++ ·) (congrArg₂ (· ++ ·) ?_ ?_) ?_) rfl
    · refine flatMap_congr_mem fun i hi => ?_
      exact congrArg (List.cons _)
        (addNoiseOffline_eq (hKt i) (mul_pos hbl (by linarith))).symm
    · refine flatMap_congr_mem fun p hp => ?_
      have hdur : (0 : ℚ) < 0.05 + (1 - p.2.angularity) * 0.15 := by
        have := hang p.2 (snd_mem_of_mem_enum hp)
        linarith
      by_cases hcc : a.complexity > 0.6
      · simp only [if_pos hcc]
        exact congrArg (List.cons _) (addNoiseOffline_eq (hMt p.1) hdur).symm
      · simp only [if_neg hcc]
        exact congrArg (List.cons _) (addNoiseOffline_eq (hMt p.1) hdur).symm
    · refine flatMap_congr_mem fun i hi => ?_
      refine congrArg (List.cons _) ?_
      by_cases htx : a.texture > 0.3
      · simp only [if_pos htx]
        exact (addNoiseOffline_eq (hKt i) (by norm_num)).symm
      · simp only [if_neg htx]
  · intro hD5 hlen hraw
    have hnd : (0 : ℚ) < D / 16 := div_pos (by linarith) (by norm_num)
    have hMt16 : ∀ i : ℕ, (0 : ℚ) ≤ now + i * (D / 16) :=
      fun i => add_nonneg hnow (mul_nonneg (Nat.cast_nonneg _) hnd.le)
    have h1 : boubaOfflineAttack a.complexity (D / 16) = boubaRawAttack a.complexity :=
      min_eq_left hraw
    have h2 : boubaOfflineDecay a.complexity (D / 16) = boubaRawAttack a.complexity :=
      min_eq_left hraw
    have h3 : boubaOfflineSustainEnd a.complexity (D / 16) =
        D / 16 - boubaRawAttack a.complexity := by
      unfold boubaOfflineSustainEnd
      rw [h1, h2]
      refine max_eq_right ?_
      have h516 : (5 : ℚ) / 16 ≤ D / 16 := by linarith
      linarith
    have h4 : min (1 : ℚ) (D * 0.2) = 1 := min_eq_left (by linarith)
    have h5 : max (D * 0.2) (D - 1) = D - 1 := max_eq_right (by linarith)
    have h6 : min (1.5 : ℚ) (D * 0.3) = 1.5 := min_eq_left (by linarith)
    have h7 : max ((1.5 : ℚ) + 0.01) (D - 1.5) = D - 1.5 := max_eq_right (by linarith)
    simp only [generateBoubaSoundRT, generateBoubaSoundOff, hlen, Nat.cast_ofNat]
    refine congrArg₂ List.cons ?_
      (congrArg₂ (· ++ ·) (congrArg₂ (· ++ ·) ?_ ?_) ?_)
    · simp only [h4, h5, add_sub_assoc]
    · exact (addNoiseOffline_eq hnow (by linarith)).symm
    · refine flatMap_congr_mem fun p hp => ?_
      by_cases hcc : a.complexity > 0.6
      · simp only [if_pos hcc, h1, h3, add_sub_assoc]
        exact congrArg (List.cons _) (addNoiseOffline_eq (hMt16 p.1) hnd).symm
      · simp only [if_neg hcc, h1, h3, add_sub_assoc]
        exact congrArg (List.cons _) (addNoiseOffline_eq (hMt16 p.1) hnd).symm
    · refine flatMap_congr_mem fun x hx => ?_
      simp only [h6, h7, add_sub_assoc]
      refine congrArg (List.cons _) ?_
      by_cases htx : a.texture > 0.2
      · simp only [if_pos htx]
        exact (addNoiseOffline_eq hnow (by linarith)).symm
      · simp only [if_neg htx]

/-- Witness for C1 at the smooth record (complexity 1), `now = 0`,
duration 16 (all offline clamps inactive). -/
theorem realtime_offline_event_lists_witness :
    generateKikiSoundRT opsConst smoothRecord 0 16 =
      generateKikiSoundOff opsConst smoothRecord 0 16 ∧
    generateBoubaSoundRT opsConst smoothRecord 0 16 =
      generateBoubaSoundOff opsConst smoothRecord 0 16 := by
  have h := realtime_offline_event_lists opsConst smoothRecord 0 16
    (by norm_num) (by norm_num) (by norm_num [smoothRecord]) (by norm_num [smoothRecord])
    (by intro s hs; simp [smoothRecord, seg16] at hs; simp [hs])
  exact ⟨h.1, h.2 (by norm_num) rfl (by norm_num [smoothRecord, boubaRawAttack])⟩

/-- C1 counterexample: at duration 5 the realtime and offline Bouba event
lists differ (the offline melody envelope is clamped, the realtime one is
not). -/
theorem realtime_offline_divergence_cex :
    generateBoubaSoundRT opsConst flatRecord 0 5 ≠
      generateBoubaSoundOff opsConst flatRecord 0 5 := by
  intro h
  have hproj := congrArg
    (fun l : List Voice => ((l.getD 2 (noiseVoice 0 0 0)).gain.getD 1 ⟨0, 0, .set⟩).t) h
  have e1 : (((generateBoubaSoundRT opsConst flatRecord 0 5).getD 2
      (noiseVoice 0 0 0)).gain.getD 1 ⟨0, 0, .set⟩).t = 1 / 2 := by
    norm_num [generateBoubaSoundRT, flatRecord, seg16, List.enum, List.enumFrom,
      List.flatMap_cons, List.flatMap_nil, addNoiseEvents, noiseVoice, boubaRawAttack,
      List.getD, baseFreqOf, discreteFilterCutoff]
  have e2 : (((generateBoubaSoundOff opsConst flatRecord 0 5).getD 2
      (noiseVoice 0 0 0)).gain.getD 1 ⟨0, 0, .set⟩).t = 3 / 32 := by
    norm_num [generateBoubaSoundOff, flatRecord, seg16, List.enum, List.enumFrom,
      List.flatMap_cons, List.flatMap_nil, addNoiseOfflineEvents, noiseVoice,
      boubaOfflineAttack, boubaOfflineDecay, boubaOfflineSustainEnd, boubaRawAttack,
      List.getD, baseFreqOf, discreteFilterCutoff]
  simp only [e1, e2] at hproj
  norm_num at hproj

/-! ## C6: every sampling method yields exactly 16 segments -/

/-- The segment count of an analysis result. -/
def segmentCount (r : Option AnalysisRecord) : Option ℕ :=
  r.map fun x => x.segmentData.length

theorem sampleBrightnessLoop_length (ops : FloatOps) (data : ℕ → ℚ) (c : Canvas) :
    ∀ (k : ℕ) (st : List SampleXY × List (ℕ × ℕ)),
      (((List.range k).foldl (sampleBrightnessStep ops data c) st).1).length
        = st.1.length + k := by
  intro k
  induction k with
  | zero => intro st; simp
  | succ k ih =>
    intro st
    rw [List.range_succ, List.foldl_append, List.foldl_cons, List.foldl_nil]
    simp only [sampleBrightnessStep, List.length_append, List.length_cons,
      List.length_nil, ih st]
    omega

theorem sampleBrightness_length (ops : FloatOps) (data : ℕ → ℚ) (c : Canvas)
    (n : ℕ) : (sampleBrightness ops data c n).length = 1 + (n - 1) := by
  unfold sampleBrightness
  rw [sampleBrightnessLoop_length]
  simp

theorem sampleEdges_length (rng : ℕ → ℚ) (data : ℕ → ℚ) (c : Canvas) (n : ℕ) :
    (sampleEdges rng data c n).length = n := by
  unfold sampleEdges
  simp only [List.length_append, List.length_map, List.length_range]
  have hle : ∀ picks : List SampleXY, picks.length ≤ n →
      picks.length + (n - picks.length) = n := fun _ h => Nat.add_sub_cancel' h
  apply hle
  calc (((List.range n).filterMap _).length) ≤ (List.range n).length :=
        List.length_filterMap_le _ _
    _ = n := List.length_range n

theorem sampleScattered_length (data : ℕ → ℚ) (c : Canvas) :
    (sampleScattered data c).length = 16 := by
  unfold sampleScattered
  rw [List.length_map]
  rfl

theorem sampleRegions_length (data : ℕ → ℚ) (c : Canvas) :
    (sampleRegions data c).length = 16 := by
  unfold sampleRegions
  rw [List.length_map]
  rfl

theorem segmentDataOf_length (samples : List SampleXY) :
    (segmentDataOf samples).length = samples.length := by
  simp only [segmentDataOf]
  split <;> simp

/-- C6: for any buffer at least 8×8, `analyzeImage` returns a record whose
`segmentData` has exactly 16 entries, for each of the four sampling
methods (the edge sampler pads with rng points; the regions sampler emits
one entry per 4×4 cell). -/
theorem segmentData_always_16 (ops : FloatOps) (rng : ℕ → ℚ) (c : Canvas)
    (data : ℕ → ℚ) (hw : 8 ≤ c.width) (hh : 8 ≤ c.height) (m : SamplingMethod) :
    segmentCount (analyzeImage ops rng c data m) = some 16 := by
  have hz : ¬(c.width * c.height * 4 = 0) := by
    have : 0 < c.width := by omega
    have : 0 < c.height := by omega
    positivity
  rw [analyzeImage, if_neg hz]
  show some (segmentDataOf (samplesFor ops rng c data m)).length = some 16
  rw [segmentDataOf_length]
  cases m
  · rw [show samplesFor ops rng c data .brightness = sampleBrightness ops data c 16 from rfl,
      sampleBrightness_length]
  · rw [show samplesFor ops rng c data .edges = sampleEdges rng data c 16 from rfl,
      sampleEdges_length]
  · rw [show samplesFor ops rng c data .random = sampleScattered data c from rfl,
      sampleScattered_length]
  · rw [show samplesFor ops rng c data .regions = sampleRegions data c from rfl,
      sampleRegions_length]

/-- Witness for C6 on an 8×8 buffer, all four methods. -/
theorem segmentData_always_16_witness :
    segmentCount (analyzeImage opsConst (fun _ => 1/2) ⟨8, 8⟩ (fun _ => 255)
      .brightness) = some 16 ∧
    segmentCount (analyzeImage opsConst (fun _ => 1/2) ⟨8, 8⟩ (fun _ => 255)
      .edges) = some 16 ∧
    segmentCount (analyzeImage opsConst (fun _ => 1/2) ⟨8, 8⟩ (fun _ => 255)
      .random) = some 16 ∧
    segmentCount (analyzeImage opsConst (fun _ => 1/2) ⟨8, 8⟩ (fun _ => 255)
      .regions) = some 16 :=
  ⟨segmentData_always_16 opsConst _ _ _ (by norm_num) (by norm_num) .brightness,
   segmentData_always_16 opsConst _ _ _ (by norm_num) (by norm_num) .edges,
   segmentData_always_16 opsConst _ _ _ (by norm_num) (by norm_num) .random,
   segmentData_always_16 opsConst _ _ _ (by norm_num) (by norm_num) .regions⟩

/-! ## C9: the WAV container layout -/

/-- Little-endian byte pair of a 16-bit value. -/
def le16Bytes (v : ℕ) : List ℕ := [v % 256, v / 256 % 256]

/-- Little-endian byte quadruple of a 32-bit value. -/
def le32Bytes (v : ℕ) : List ℕ :=
  [v % 256, v / 256 % 256, v / 65536 % 256, v / 16777216 % 256]

/-- Low byte of an int16 sample as stored by `setInt16LE`. -/
def lowByte (v : ℤ) : ℕ := (v % 65536).toNat % 256

/-- High byte of an int16 sample as stored by `setInt16LE`. -/
def highByte (v : ℤ) : ℕ := (v % 65536).toNat / 256 % 256

theorem setUint8_at (st : ℕ → ℕ) (off v : ℕ) : setUint8 st off v off = v % 256 := by
  simp [setUint8]

theorem setUint8_ne (st : ℕ → ℕ) (off v i : ℕ) (h : i ≠ off) :
    setUint8 st off v i = st i := by
  simp [setUint8, h]

theorem writeFrames_lt (vals : List ℤ) (st : ℕ → ℕ) (off p : ℕ) (h : p < off) :
    writeFrames vals st off p = st p := by
  induction vals generalizing st off with
  | nil => rfl
  | cons v rest ih =>
    rw [writeFrames, ih _ (off + 2) (by omega)]
    rw [setInt16LE, setUint16LE, setUint8_ne _ _ _ _ (by omega),
      setUint8_ne _ _ _ _ (by omega)]

theorem writeFrames_lo (vals : List ℤ) (st : ℕ → ℕ) (off j : ℕ)
    (h : j < vals.length) :
    writeFrames vals st off (off + 2 * j) = lowByte (vals.getD j 0) := by
  induction vals generalizing st off j with
  | nil => simp at h
  | cons v rest ih =>
    cases j with
    | zero =>
      rw [writeFrames, writeFrames_lt _ _ _ _ (by omega)]
      simp only [Nat.mul_zero, Nat.add_zero]
      rw [setInt16LE, setUint16LE, setUint8_ne _ _ _ _ (by omega), setUint8_at]
      rfl
    | succ j =>
      rw [writeFrames, show off + 2 * (j + 1) = (off + 2) + 2 * j by omega,
        ih _ (off + 2) j (by simpa using h)]
      rfl

theorem writeFrames_hi (vals : List ℤ) (st : ℕ → ℕ) (off j : ℕ)
    (h : j < vals.length) :
    writeFrames vals st off (off + 2 * j + 1) = highByte (vals.getD j 0) := by
  induction vals generalizing st off j with
  | nil => simp at h
  | cons v rest ih =>
    cases j with
    | zero =>
      rw [writeFrames, writeFrames_lt _ _ _ _ (by omega)]
      simp only [Nat.mul_zero, Nat.add_zero]
      rw [setInt16LE, setUint16LE, setUint8_at]
      rfl
    | succ j =>
      rw [writeFrames, show off + 2 * (j + 1) + 1 = (off + 2) + 2 * j + 1 by omega,
        ih _ (off + 2) j (by simpa using h)]
      rfl

/-- The 44 header bytes written by `encodeWAV`, fully evaluated. -/
theorem wavHeader_spec (b : AudioBufferModel) :
    (List.range 44).map (wavHeaderStore b) =
      [82, 73, 70, 70] ++ le32Bytes (36 + b.length * (b.numberOfChannels * 2)) ++
      [87, 65, 86, 69] ++ [102, 109, 116, 32] ++ le32Bytes 16 ++ le16Bytes 1 ++
      le16Bytes b.numberOfChannels ++ le32Bytes b.sampleRate ++
      le32Bytes (b.sampleRate * (b.numberOfChannels * 2)) ++
      le16Bytes (b.numberOfChannels * 2) ++ le16Bytes 16 ++
      [100, 97, 116, 97] ++ le32Bytes (b.length * (b.numberOfChannels * 2)) := by
  have hR : "RIFF".toList = ['R', 'I', 'F', 'F'] := rfl
  have hW : "WAVE".toList = ['W', 'A', 'V', 'E'] := rfl
  have hF : "fmt ".toList = ['f', 'm', 't', ' '] := rfl
  have hD : "data".toList = ['d', 'a', 't', 'a'] := rfl
  have hrange : List.range 44 =
      [0, 1, 2, 3, 4, 5, 6, 7, 8, 9, 10, 11, 12, 13, 14, 15, 16, 17, 18, 19, 20,
       21, 22, 23, 24, 25, 26, 27, 28, 29, 30, 31, 32, 33, 34, 35, 36, 37, 38,
       39, 40, 41, 42, 43] := by decide
  rw [hrange]
  norm_num [wavHeaderStore, writeString, hR, hW, hF, hD, List.enum, List.enumFrom,
    setUint32LE, setUint16LE, setUint8, le16Bytes, le32Bytes]
  decide

theorem getD_range_map {β} (f : ℕ → β) (n k : ℕ) (d : β) (h : k < n) :
    ((List.range n).map f).getD k d = f k := by
  rw [List.getD_eq_getElem?_getD, List.getElem?_map, List.getElem?_range h]
  rfl

theorem flatMap_range_eq {β} (n m : ℕ) (g : ℕ → ℕ → β) :
    (List.range n).flatMap (fun i => (List.range m).map (g i)) =
      (List.range (n * m)).map (fun k => g (k / m) (k % m)) := by
  induction n with
  | zero => simp
  | succ n ih =>
    rw [List.range_succ, List.flatMap_append, ih,
      show (n + 1) * m = n * m + m by ring, List.range_add]
    simp only [List.flatMap_cons, List.flatMap_nil, List.append_nil, List.map_append,
      List.map_map]
    congr 1
    apply List.map_congr_left
    intro k hk
    have hkm : k < m := List.mem_range.mp hk
    have hm : 0 < m := by omega
    have hd : (n * m + k) / m = n := by
      rw [show n * m + k = k + m * n by ring, Nat.add_mul_div_left _ _ hm,
        Nat.div_eq_of_lt hkm, Nat.zero_add]
    have hmod : (n * m + k) % m = k := by
      rw [show n * m + k = k + m * n by ring, Nat.add_mul_mod_self_left,
        Nat.mod_eq_of_lt hkm]
    simp [Function.comp, hd, hmod]

theorem wavFrames_length (b : AudioBufferModel) :
    (wavFrames b).length = b.length * b.numberOfChannels := by
  rw [wavFrames, flatMap_range_eq, List.length_map, List.length_range]

theorem wavFrames_getD (b : AudioBufferModel) (i ch : ℕ) (hi : i < b.length)
    (hch : ch < b.numberOfChannels) :
    (wavFrames b).getD (i * b.numberOfChannels + ch) 0 =
      int16OfSample (b.channelData ch i) := by
  have hC : 0 < b.numberOfChannels := by omega
  have hidx : i * b.numberOfChannels + ch < b.length * b.numberOfChannels := by
    calc i * b.numberOfChannels + ch < i * b.numberOfChannels + b.numberOfChannels := by
          omega
      _ = (i + 1) * b.numberOfChannels := by ring
      _ ≤ b.length * b.numberOfChannels := Nat.mul_le_mul_right _ (by omega)
  rw [wavFrames, flatMap_range_eq, getD_range_map _ _ _ _ hidx]
  have h1 : (i * b.numberOfChannels + ch) % b.numberOfChannels = ch := by
    rw [show i * b.numberOfChannels + ch = ch + b.numberOfChannels * i by ring,
      Nat.add_mul_mod_self_left, Nat.mod_eq_of_lt hch]
  have h2 : (i * b.numberOfChannels + ch) / b.numberOfChannels = i := by
    rw [show i * b.numberOfChannels + ch = ch + b.numberOfChannels * i by ring,
      Nat.add_mul_div_left _ _ hC, Nat.div_eq_of_lt hch, Nat.zero_add]
  rw [h1, h2]

/-- C9: `encodeWAV` produces `44 + samples·channels·2` bytes: a 44-byte
RIFF/WAVE header declaring PCM (format code 1), 16 bits per sample, the
buffer's channel count and its sample rate (44100 for the offline renderer),
RIFF size `36 + dataSize` and data-chunk size `samples·channels·2`, followed
by the samples interleaved across channels as little-endian signed 16-bit
integers. -/
theorem encodeWAV_spec (b : AudioBufferModel) (hsr : b.sampleRate = 44100) :
    (encodeWAV b).length = 44 + b.length * b.numberOfChannels * 2 ∧
    (encodeWAV b).take 44 =
      [82, 73, 70, 70] ++ le32Bytes (36 + b.length * (b.numberOfChannels * 2)) ++
      [87, 65, 86, 69] ++ [102, 109, 116, 32] ++ le32Bytes 16 ++ le16Bytes 1 ++
      le16Bytes b.numberOfChannels ++ le32Bytes 44100 ++
      le32Bytes (44100 * (b.numberOfChannels * 2)) ++
      le16Bytes (b.numberOfChannels * 2) ++ le16Bytes 16 ++
      [100, 97, 116, 97] ++ le32Bytes (b.length * (b.numberOfChannels * 2)) ∧
    ∀ i < b.length, ∀ ch < b.numberOfChannels,
      (encodeWAV b).getD (44 + 2 * (i * b.numberOfChannels + ch)) 0 =
        lowByte (int16OfSample (b.channelData ch i)) ∧
      (encodeWAV b).getD (44 + 2 * (i * b.numberOfChannels + ch) + 1) 0 =
        highByte (int16OfSample (b.channelData ch i)) := by
  have hfl := wavFrames_length b
  refine ⟨?_, ?_, ?_⟩
  · simp only [encodeWAV]
    rw [List.length_map, List.length_range]
    ring
  · simp only [encodeWAV]
    rw [← List.map_take, List.take_range, show min 44 (44 + b.length *
      (b.numberOfChannels * 2)) = 44 by omega]
    rw [List.map_congr_left fun i hi =>
      writeFrames_lt (wavFrames b) (wavHeaderStore b) 44 i (List.mem_range.mp hi)]
    rw [wavHeader_spec b, hsr]
  · intro i hi ch hch
    have hidx : i * b.numberOfChannels + ch < b.length * b.numberOfChannels := by
      calc i * b.numberOfChannels + ch < i * b.numberOfChannels + b.numberOfChannels := by
            omega
        _ = (i + 1) * b.numberOfChannels := by ring
        _ ≤ b.length * b.numberOfChannels := Nat.mul_le_mul_right _ (by omega)
    have hds : 2 * (i * b.numberOfChannels + ch) + 1 <
        b.length * (b.numberOfChannels * 2) := by
      have h2 : 2 * (b.length * b.numberOfChannels) = b.length * (b.numberOfChannels * 2) := by
        ring
      omega
    constructor
    · simp only [encodeWAV]
      rw [getD_range_map _ _ _ _ (by omega), writeFrames_lo _ _ _ _ (by omega),
        wavFrames_getD b i ch hi hch]
    · simp only [encodeWAV]
      rw [getD_range_map _ _ _ _ (by omega), writeFrames_hi _ _ _ _ (by omega),
        wavFrames_getD b i ch hi hch]

/-- The concrete stereo two-frame buffer used as the C9 witness. -/
def wavWitnessBuffer : AudioBufferModel :=
  { numberOfChannels := 2, sampleRate := 44100, length := 2,
    channelData := fun ch i => ((ch : ℚ) + i) / 4 }

/-- Witness for C9 at a concrete 2-channel, 2-frame buffer. -/
theorem encodeWAV_spec_witness :
    (encodeWAV wavWitnessBuffer).length =
      44 + wavWitnessBuffer.length * wavWitnessBuffer.numberOfChannels * 2 ∧
    (encodeWAV wavWitnessBuffer).getD
        (44 + 2 * (1 * wavWitnessBuffer.numberOfChannels + 0)) 0 =
      lowByte (int16OfSample (wavWitnessBuffer.channelData 0 1)) := by
  have h := encodeWAV_spec wavWitnessBuffer rfl
  exact ⟨h.1, (h.2.2 1 (by norm_num [wavWitnessBuffer]) 0
    (by norm_num [wavWitnessBuffer])).1⟩

/-! ## C8 machinery: analysis of a uniform (all-white) buffer -/

theorem quad_lt {A B : ℕ} (h : A < B) {c : ℕ} (hc : c < 4) : A * 4 + c < B * 4 := by
  omega

theorem pix_lt {w h x y : ℕ} (hx : x < w) (hy : y < h) : y * w + x < w * h := by
  calc y * w + x < y * w + w := by omega
    _ = (y + 1) * w := by ring
    _ ≤ h * w := Nat.mul_le_mul_right _ (by omega)
    _ = w * h := Nat.mul_comm _ _

theorem lumAt_const {data : ℕ → ℚ} {w h : ℕ} {v : ℚ}
    (hd : ∀ i < w * h * 4, data i = v) {x y : ℕ} (hx : x < w) (hy : y < h) :
    lumAt data w x y = v := by
  have hlt : y * w + x < w * h := pix_lt hx hy
  have h0 := hd ((y * w + x) * 4) (by omega)
  have h1 := hd ((y * w + x) * 4 + 1) (by omega)
  have h2 := hd ((y * w + x) * 4 + 2) (by omega)
  simp only [lumAt]
  rw [h0, h1, h2]
  ring

theorem edgeMag_const {ops : FloatOps} {data : ℕ → ℚ} {w h : ℕ} {v : ℚ}
    (hs : ops.sqrt 0 = 0) (hd : ∀ i < w * h * 4, data i = v) (x y : ℕ) :
    edgeMagAt ops data w h x y = 0 := by
  simp only [edgeMagAt]
  split
  · rename_i hcond
    obtain ⟨h1, h2, h3, h4⟩ := hcond
    rw [lumAt_const hd (by omega) (by omega), lumAt_const hd (by omega) (by omega),
      lumAt_const hd (by omega) (by omega)]
    simp [hs]
  · rfl

theorem clustering_of_no_edges {ops : FloatOps} {em ed : ℕ → ℕ → ℚ} {w h : ℕ}
    {thr : ℚ} (hno : ∀ p ∈ interiorPix w h, ¬em p.1 p.2 > thr) :
    computeDirectionClustering ops em ed w h thr = 0.5 := by
  simp only [computeDirectionClustering]
  rw [Finset.filter_false_of_mem hno]
  simp

theorem contrast_of_no_edges {em : ℕ → ℕ → ℚ} {w h : ℕ} {thr : ℚ}
    (hno : ∀ p ∈ interiorPix w h, ¬em p.1 p.2 > thr) :
    computeEdgeContrast em w h thr = 0.5 := by
  simp only [computeEdgeContrast]
  rw [Finset.filter_false_of_mem hno]
  simp

theorem sharpness_of_no_edges {ops : FloatOps} {em ed : ℕ → ℕ → ℚ} {w h : ℕ}
    {thr : ℚ} (hno : ∀ p ∈ interiorPix2 w h, ¬em p.1 p.2 > thr) :
    computeDirectionChangeSharpness ops em ed w h thr = 0.5 := by
  simp only [computeDirectionChangeSharpness]
  rw [Finset.filter_false_of_mem hno]
  simp

theorem computeScaleMetrics_const {ops : FloatOps} {data : ℕ → ℚ} {w h : ℕ} {v : ℚ}
    (hs : ops.sqrt 0 = 0) (hd : ∀ i < w * h * 4, data i = v) :
    computeScaleMetrics ops data w h = ⟨0.5, 0.5, 0.5⟩ := by
  have hem : ∀ p : ℕ × ℕ, edgeMagAt ops data w h p.1 p.2 = 0 :=
    fun p => edgeMag_const hs hd p.1 p.2
  simp only [computeScaleMetrics]
  rw [clustering_of_no_edges (fun p _ => by rw [hem p]; norm_num),
    contrast_of_no_edges (fun p _ => by rw [hem p]; norm_num),
    sharpness_of_no_edges (fun p _ => by rw [hem p]; norm_num)]

theorem downsample_const {data : ℕ → ℚ} {w h f : ℕ} {v : ℚ} (hf : 0 < f)
    (hd : ∀ i < w * h * 4, data i = v) :
    ∀ i < w / f * (h / f) * 4, (downsample data w h f).1 i = v := by
  intro i hi
  simp only [downsample]
  have hpix : i / 4 < w / f * (h / f) := by omega
  have hnW : 0 < w / f := by
    rcases Nat.eq_zero_or_pos (w / f) with h0 | h0
    · rw [h0] at hpix; simp at hpix
    · exact h0
  have hnH : 0 < h / f := by
    rcases Nat.eq_zero_or_pos (h / f) with h0 | h0
    · rw [h0, Nat.mul_zero] at hpix; simp at hpix
    · exact h0
  have hx : i / 4 % (w / f) < w / f := Nat.mod_lt _ hnW
  have hy : i / 4 / (w / f) < h / f := by
    rw [Nat.div_lt_iff_lt_mul hnW]
    calc i / 4 < w / f * (h / f) := hpix
      _ = h / f * (w / f) := Nat.mul_comm _ _
  have hvalid : ((Finset.range f ×ˢ Finset.range f).filter fun d =>
      i / 4 % (w / f) * f + d.2 < w ∧ i / 4 / (w / f) * f + d.1 < h) =
      Finset.range f ×ˢ Finset.range f := by
    apply Finset.filter_true_of_mem
    intro d hdm
    obtain ⟨hd1, hd2⟩ := Finset.mem_product.mp hdm
    have hd1' : d.1 < f := Finset.mem_range.mp hd1
    have hd2' : d.2 < f := Finset.mem_range.mp hd2
    constructor
    · calc i / 4 % (w / f) * f + d.2 < i / 4 % (w / f) * f + f := by omega
        _ = (i / 4 % (w / f) + 1) * f := by ring
        _ ≤ w / f * f := Nat.mul_le_mul_right _ (by omega)
        _ ≤ w := Nat.div_mul_le_self w f
    · calc i / 4 / (w / f) * f + d.1 < i / 4 / (w / f) * f + f := by omega
        _ = (i / 4 / (w / f) + 1) * f := by ring
        _ ≤ h / f * f := Nat.mul_le_mul_right _ (by omega)
        _ ≤ h := Nat.div_mul_le_self h f
  rw [hvalid]
  have hsum : ∑ d ∈ Finset.range f ×ˢ Finset.range f,
      data (((i / 4 / (w / f) * f + d.1) * w + (i / 4 % (w / f) * f + d.2)) * 4 + i % 4) =
      (Finset.range f ×ˢ Finset.range f).card • v := by
    rw [← Finset.sum_const]
    apply Finset.sum_congr rfl
    intro d hdm
    obtain ⟨hd1, hd2⟩ := Finset.mem_product.mp hdm
    have hd1' : d.1 < f := Finset.mem_range.mp hd1
    have hd2' : d.2 < f := Finset.mem_range.mp hd2
    apply hd
    have hxw : i / 4 % (w / f) * f + d.2 < w := by
      calc i / 4 % (w / f) * f + d.2 < i / 4 % (w / f) * f + f := by omega
        _ = (i / 4 % (w / f) + 1) * f := by ring
        _ ≤ w / f * f := Nat.mul_le_mul_right _ (by omega)
        _ ≤ w := Nat.div_mul_le_self w f
    have hyh : i / 4 / (w / f) * f + d.1 < h := by
      calc i / 4 / (w / f) * f + d.1 < i / 4 / (w / f) * f + f := by omega
        _ = (i / 4 / (w / f) + 1) * f := by ring
        _ ≤ h / f * f := Nat.mul_le_mul_right _ (by omega)
        _ ≤ h := Nat.div_mul_le_self h f
    exact quad_lt (pix_lt hxw hyh) (Nat.mod_lt _ (by norm_num))
  rw [hsum, Finset.card_product, Finset.card_range, nsmul_eq_mul]
  rw [mul_comm, mul_div_assoc, div_self (by positivity : ((f * f : ℕ) : ℚ) ≠ 0), mul_one]

theorem computeAngularity_const200 {ops : FloatOps} (hs : ops.sqrt 0 = 0) :
    computeAngularity ops (fun _ => (255 : ℚ)) 200 200 = ⟨1/2, 1/2, 1/2, 1/2⟩ := by
  have hd : ∀ i < 200 * 200 * 4, (fun _ => (255 : ℚ)) i = 255 := fun _ _ => rfl
  have hd2 : ∀ i < 100 * 100 * 4, (downsample (fun _ => (255 : ℚ)) 200 200 2).1 i = 255 := by
    intro i hi
    exact downsample_const (by norm_num) hd i (by norm_num; omega)
  have hd4 : ∀ i < 50 * 50 * 4, (downsample (fun _ => (255 : ℚ)) 200 200 4).1 i = 255 := by
    intro i hi
    exact downsample_const (by norm_num) hd i (by norm_num; omega)
  simp only [computeAngularity]
  rw [if_neg (by norm_num)]
  have e1 := computeScaleMetrics_const (w := 200) (h := 200) hs hd
  have e2 : computeScaleMetrics ops (downsample (fun _ => (255 : ℚ)) 200 200 2).1
      (downsample (fun _ => (255 : ℚ)) 200 200 2).2.1
      (downsample (fun _ => (255 : ℚ)) 200 200 2).2.2 = ⟨0.5, 0.5, 0.5⟩ := by
    have hw : (downsample (fun _ => (255 : ℚ)) 200 200 2).2.1 = 100 := rfl
    have hh : (downsample (fun _ => (255 : ℚ)) 200 200 2).2.2 = 100 := rfl
    rw [hw, hh]
    exact computeScaleMetrics_const hs hd2
  have e4 : computeScaleMetrics ops (downsample (fun _ => (255 : ℚ)) 200 200 4).1
      (downsample (fun _ => (255 : ℚ)) 200 200 4).2.1
      (downsample (fun _ => (255 : ℚ)) 200 200 4).2.2 = ⟨0.5, 0.5, 0.5⟩ := by
    have hw : (downsample (fun _ => (255 : ℚ)) 200 200 4).2.1 = 50 := rfl
    have hh : (downsample (fun _ => (255 : ℚ)) 200 200 4).2.2 = 50 := rfl
    rw [hw, hh]
    exact computeScaleMetrics_const hs hd4
  rw [e1, e2, e4]
  norm_num [AngularityResult.mk.injEq, min_def, max_def]

theorem samplePoint_white {x y : ℤ} (hx0 : 0 ≤ x) (hx : x < 200) (hy0 : 0 ≤ y)
    (hy : y < 200) :
    samplePoint (fun _ => (255 : ℚ)) ⟨200, 200⟩ x y = ⟨1, 0⟩ := by
  simp only [samplePoint]
  rw [if_neg (by push_cast; omega)]
  refine congrArg₂ Sample.mk (by norm_num) ?_
  have hzero : (∑ d ∈ ((Finset.Icc (-2 : ℤ) 2) ×ˢ (Finset.Icc (-2 : ℤ) 2)).filter
      (fun d => 0 ≤ x + d.2 ∧ x + d.2 < (⟨200, 200⟩ : Canvas).width ∧
        0 ≤ y + d.1 ∧ y + d.1 < (⟨200, 200⟩ : Canvas).height),
      |((fun _ => (255 : ℚ)) ((y.toNat * (⟨200, 200⟩ : Canvas).width + x.toNat) * 4) +
        (fun _ => (255 : ℚ)) ((y.toNat * (⟨200, 200⟩ : Canvas).width + x.toNat) * 4 + 1) +
        (fun _ => (255 : ℚ)) ((y.toNat * (⟨200, 200⟩ : Canvas).width + x.toNat) * 4 + 2)) /
          3 / 255 * 255 -
        ((fun _ => (255 : ℚ)) (((y + d.1).toNat * (⟨200, 200⟩ : Canvas).width +
            (x + d.2).toNat) * 4) +
          (fun _ => (255 : ℚ)) (((y + d.1).toNat * (⟨200, 200⟩ : Canvas).width +
            (x + d.2).toNat) * 4 + 1) +
          (fun _ => (255 : ℚ)) (((y + d.1).toNat * (⟨200, 200⟩ : Canvas).width +
            (x + d.2).toNat) * 4 + 2)) / 3|) = 0 := by
    apply Finset.sum_eq_zero
    intro d hd
    norm_num
  rw [hzero]
  norm_num

theorem sampleScattered_white :
    sampleScattered (fun _ => (255 : ℚ)) ⟨200, 200⟩ =
      scatterPattern.map fun pq =>
        ⟨1, 0, ⌊pq.1 * ((200 : ℕ) : ℚ)⌋, ⌊pq.2 * ((200 : ℕ) : ℚ)⌋⟩ := by
  unfold sampleScattered
  apply List.map_congr_left
  intro pq hpq
  have hb : 0 ≤ pq.1 ∧ pq.1 < 1 ∧ 0 ≤ pq.2 ∧ pq.2 < 1 := by
    fin_cases hpq <;> norm_num
  have hx0 : (0 : ℤ) ≤ ⌊pq.1 * ((200 : ℕ) : ℚ)⌋ :=
    Int.floor_nonneg.mpr (mul_nonneg hb.1 (by norm_num))
  have hx : ⌊pq.1 * ((200 : ℕ) : ℚ)⌋ < 200 := by
    apply Int.floor_lt.mpr
    push_cast
    nlinarith [hb.1, hb.2.1]
  have hy0 : (0 : ℤ) ≤ ⌊pq.2 * ((200 : ℕ) : ℚ)⌋ :=
    Int.floor_nonneg.mpr (mul_nonneg hb.2.2.1 (by norm_num))
  have hy : ⌊pq.2 * ((200 : ℕ) : ℚ)⌋ < 200 := by
    apply Int.floor_lt.mpr
    push_cast
    nlinarith [hb.2.2.1, hb.2.2.2]
  dsimp only
  rw [samplePoint_white hx0 hx hy0 hy]

theorem foldl_min_const {v : ℚ} : ∀ l : List ℚ, (∀ x ∈ l, x = v) →
    l.foldl min v = v := by
  intro l
  induction l with
  | nil => intro _; rfl
  | cons a t ih =>
    intro h
    rw [List.foldl_cons, h a (List.mem_cons_self a t), min_self]
    exact ih fun x hx => h x (List.mem_cons_of_mem a hx)

theorem foldl_max_const {v : ℚ} : ∀ l : List ℚ, (∀ x ∈ l, x = v) →
    l.foldl max v = v := by
  intro l
  induction l with
  | nil => intro _; rfl
  | cons a t ih =>
    intro h
    rw [List.foldl_cons, h a (List.mem_cons_self a t), max_self]
    exact ih fun x hx => h x (List.mem_cons_of_mem a hx)

theorem segmentDataOf_const {samples : List SampleXY} (hne : samples ≠ [])
    (h : ∀ s ∈ samples, s.brightness = 1 ∧ s.angularity = 0) :
    segmentDataOf samples = List.replicate samples.length ⟨1, 0⟩ := by
  obtain ⟨a, as, rfl⟩ := List.exists_cons_of_ne_nil hne
  have ha := h a (List.mem_cons_self a as)
  have hmin : listMin ((a :: as).map (·.brightness)) = 1 := by
    simp only [List.map_cons, listMin, ha.1]
    exact foldl_min_const _ fun x hx => by
      obtain ⟨s, hs, rfl⟩ := List.mem_map.mp hx
      exact (h s (List.mem_cons_of_mem a hs)).1
  have hmax : listMax ((a :: as).map (·.brightness)) = 1 := by
    simp only [List.map_cons, listMax, ha.1]
    exact foldl_max_const _ fun x hx => by
      obtain ⟨s, hs, rfl⟩ := List.mem_map.mp hx
      exact (h s (List.mem_cons_of_mem a hs)).1
  simp only [segmentDataOf, hmin, hmax]
  rw [if_neg (by norm_num)]
  apply List.eq_replicate_iff.mpr
  refine ⟨by simp, ?_⟩
  intro b hb
  obtain ⟨s, hs, rfl⟩ := List.mem_map.mp hb
  have := h s hs
  simp [this.1, this.2]

theorem getD_replicate_lt {α} (a d : α) : ∀ (n i : ℕ), i < n →
    (List.replicate n a).getD i d = a := by
  intro n
  induction n with
  | zero => intro i hi; omega
  | succ n ih =>
    intro i hi
    cases i with
    | zero => rfl
    | succ i => exact ih i (by omega)

theorem rhythmOf_replicate (n : ℕ) : rhythmOf (List.replicate n ⟨1, 0⟩) = 0 := by
  unfold rhythmOf
  rw [Finset.sum_eq_zero, zero_div]
  intro i hi
  have hi' := Finset.mem_range.mp hi
  rw [List.length_replicate] at hi'
  rw [getD_replicate_lt _ _ n (i + 1) (by omega), getD_replicate_lt _ _ n i (by omega)]
  norm_num

theorem complexityOf_replicate {ops : FloatOps} (hs : ops.sqrt 0 = 0) (n : ℕ) :
    complexityOf ops (List.replicate n (⟨1, 0⟩ : Sample)) = 0 := by
  cases n with
  | zero => norm_num [complexityOf, hs]
  | succ m =>
    have hk : ((m + 1 : ℕ) : ℚ) ≠ 0 := Nat.cast_ne_zero.mpr (by omega)
    simp only [complexityOf, List.map_replicate, List.sum_replicate,
      List.length_replicate, nsmul_eq_mul, mul_one, mul_zero]
    rw [div_self hk]
    norm_num [hs]

theorem imageBrightness_white :
    imageBrightness ⟨200, 200⟩ (fun _ => (255 : ℚ)) = 1 := by
  simp only [imageBrightness]
  rw [show ((⟨200, 200⟩ : Canvas).width * (⟨200, 200⟩ : Canvas).height) = 40000 from rfl]
  rw [Finset.sum_congr rfl fun i _ =>
    (by norm_num : ((fun _ => (255 : ℚ)) (4 * i) + (fun _ => (255 : ℚ)) (4 * i + 1) +
      (fun _ => (255 : ℚ)) (4 * i + 2)) / 3 = 255)]
  rw [Finset.sum_const, Finset.card_range, nsmul_eq_mul]
  norm_num

theorem channelMean_white (off : ℕ) :
    channelMean ⟨200, 200⟩ (fun _ => (255 : ℚ)) off = 1 := by
  simp only [channelMean]
  rw [show ((⟨200, 200⟩ : Canvas).width * (⟨200, 200⟩ : Canvas).height) = 40000 from rfl]
  rw [Finset.sum_const, Finset.card_range, nsmul_eq_mul]
  norm_num

/-- C8: a 200×200 all-white buffer analyses to brightness 1, warmth 0,
saturation 0, angularity exactly 0.5 (every metric hits the
fewer-than-30-edges neutral default at every scale, so the multi-scale
blend is 0.5), complexity 0 and rhythm 0 (all sixteen segments uniform). -/
theorem white200_end_to_end (ops : FloatOps) (rng : ℕ → ℚ) (hs : ops.sqrt 0 = 0) :
    ∃ r, analyzeImage ops rng ⟨200, 200⟩ (fun _ => (255 : ℚ)) .random = some r ∧
      r.brightness = 1 ∧ r.warmth = 0 ∧ r.saturation = 0 ∧
      r.angularity = 1/2 ∧ r.complexity = 0 ∧ r.rhythm = 0 := by
  have hseg : segmentDataOf (samplesFor ops rng ⟨200, 200⟩ (fun _ => (255 : ℚ)) .random) =
      List.replicate 16 ⟨1, 0⟩ := by
    rw [show samplesFor ops rng ⟨200, 200⟩ (fun _ => (255 : ℚ)) .random =
      sampleScattered (fun _ => (255 : ℚ)) ⟨200, 200⟩ from rfl]
    rw [segmentDataOf_const (by rw [sampleScattered_white]; simp [scatterPattern]) ?hall]
    · rw [sampleScattered_length]
    case hall =>
      intro s hsm
      rw [sampleScattered_white] at hsm
      obtain ⟨pq, hpq, rfl⟩ := List.mem_map.mp hsm
      exact ⟨rfl, rfl⟩
  rw [analyzeImage, if_neg (by norm_num)]
  refine ⟨_, rfl, ?_, ?_, ?_, ?_, ?_, ?_⟩
  · exact imageBrightness_white
  · show channelMean ⟨200, 200⟩ (fun _ => (255 : ℚ)) 0 -
      channelMean ⟨200, 200⟩ (fun _ => (255 : ℚ)) 2 = 0
    rw [channelMean_white, channelMean_white]
    norm_num
  · show max (channelMean ⟨200, 200⟩ (fun _ => (255 : ℚ)) 0)
        (max (channelMean ⟨200, 200⟩ (fun _ => (255 : ℚ)) 1)
          (channelMean ⟨200, 200⟩ (fun _ => (255 : ℚ)) 2)) -
      min (channelMean ⟨200, 200⟩ (fun _ => (255 : ℚ)) 0)
        (min (channelMean ⟨200, 200⟩ (fun _ => (255 : ℚ)) 1)
          (channelMean ⟨200, 200⟩ (fun _ => (255 : ℚ)) 2)) = 0
    rw [channelMean_white, channelMean_white, channelMean_white]
    norm_num
  · show (computeAngularity ops (fun _ => (255 : ℚ)) 200 200).angularity = 1/2
    rw [computeAngularity_const200 hs]
  · show complexityOf ops (segmentDataOf
      (samplesFor ops rng ⟨200, 200⟩ (fun _ => (255 : ℚ)) .random)) = 0
    rw [hseg]
    exact complexityOf_replicate hs 16
  · show rhythmOf (segmentDataOf
      (samplesFor ops rng ⟨200, 200⟩ (fun _ => (255 : ℚ)) .random)) = 0
    rw [hseg]
    exact rhythmOf_replicate 16

/-- Witness for C8 with a concrete `FloatOps` whose `sqrt 0` is 0. -/
theorem white200_end_to_end_witness :
    ∃ r, analyzeImage opsConst (fun _ => 1/2) ⟨200, 200⟩ (fun _ => (255 : ℚ))
        .random = some r ∧
      r.brightness = 1 ∧ r.warmth = 0 ∧ r.saturation = 0 ∧
      r.angularity = 1/2 ∧ r.complexity = 0 ∧ r.rhythm = 0 :=
  white200_end_to_end opsConst (fun _ => 1/2) rfl

end Kiki
